import Mathlib

/-!
# Surface compatibility search of a detector layer

A shallow embedding of `Layer::getCompatibleSurfaces` and
`Layer::testCompatibleSurface` from
`Core/include/ACTS/Layers/detail/Layer.ipp`.

Conventions of the embedding.

* A non-null `const Surface*` / `const DetectorElementBase*` is the address of
  the object, a natural number; a pointer that may be null is an `Option`.
  The source compares surfaces by address only.
* `double` path lengths are exact integers; the value
  `std::numeric_limits<double>::infinity()` of `maxPathLength` is `none`.
* Dereferencing a null pointer is undefined behaviour: the run has no outcome
  (`none`).
* Every call of `Surface::intersectionEstimate` is recorded, with its
  arguments, next to the collection the source builds.
* The trailing `ICompatibilityEstimator*` argument is never read by the
  source (it is unnamed in `testCompatibleSurface`) and is left out.
-/

namespace Acts

/-- Address of a `Surface` object (a non-null `const Surface*`). -/
abbrev Surface := Nat

/-- Address of a `DetectorElementBase` object. -/
abbrev DetectorElementBase := Nat

/-- Three coordinates, exact. -/
structure Vector3D where
  x : Int
  y : Int
  z : Int
deriving DecidableEq, Repr

/-- The product `-1. * v` of line 49. -/
def Vector3D.neg (v : Vector3D) : Vector3D := ⟨-v.x, -v.y, -v.z⟩

/-- The unscoped enumeration `PropDirection`. -/
inductive PropDirection where
  | alongMomentum
  | oppositeMomentum
  | anyDirection
deriving DecidableEq, Repr

/-- Modelled from the spec: the containment mode (class `BoundaryCheck`, declared
outside the translated file). A mode either checks the bounded region or not,
and carries the caller's tolerance. -/
structure BoundaryCheck where
  checkLoc : Bool
  tolerance : Nat
deriving DecidableEq, Repr

/-- Modelled from the spec: the conversion `BoundaryCheck(bool)`; `BoundaryCheck(false)`
is the relaxed containment mode. -/
def BoundaryCheck.ofBool (sCheck : Bool) : BoundaryCheck := ⟨sCheck, 0⟩

/-- Modelled from the spec: the intersection result, validity flag, signed path length
and hit point (struct `Intersection`, declared outside the translated file). -/
structure Intersection where
  position : Vector3D
  pathLength : Int
  valid : Bool
deriving DecidableEq, Repr

/-- Modelled from the spec: the output element `SurfaceIntersection`, built at line 212
as `SurfaceIntersection(sfIntersection, &surface, rDir)`. -/
structure SurfaceIntersection where
  intersection : Intersection
  object : Surface
  pDirection : PropDirection
deriving DecidableEq, Repr

/-- Modelled from the spec: the comparison used by `std::sort` at line 185 (`operator<`
of `SurfaceIntersection`, declared outside the translated file) orders by path
length. This is its non-strict form. -/
def SurfaceIntersection.le (a b : SurfaceIntersection) : Prop :=
  a.intersection.pathLength ≤ b.intersection.pathLength

instance : DecidableRel SurfaceIntersection.le :=
  fun a b => inferInstanceAs (Decidable (a.intersection.pathLength ≤ b.intersection.pathLength))

/-- Everything the two functions read that is declared outside the translated
file, taken as parameters: the accessors of `Surface` and
`DetectorElementBase`, the virtual `Surface::intersectionEstimate(gpos, gdir,
forceDir, bcheck)`, and the integer values of the enumerators of
`PropDirection`. -/
structure Env where
  associatedMaterial : Surface → Bool
  associatedDetectorElement : Surface → Option DetectorElementBase
  surface : DetectorElementBase → Surface
  binmembers : DetectorElementBase → List DetectorElementBase
  neighbours : DetectorElementBase → List DetectorElementBase
  intersectionEstimate : Surface → Vector3D → Vector3D → Bool → BoundaryCheck → Intersection
  propDirectionValue : PropDirection → Int

/-- The binned array `m_surfaceArray`: `arrayObjects()` may hold null entries
(line 112 tests for them), `object(pos)` may return null (line 133). -/
structure SurfaceArray where
  arrayObjects : List (Option Surface)
  object : Vector3D → Option Surface

/-- The approach descriptor `m_approachDescriptor`. -/
structure ApproachDescriptor where
  containedSurfaces : List Surface

/-- The members of `Layer` that the search reads. -/
structure Layer where
  m_surfaceArray : Option SurfaceArray
  m_approachDescriptor : Option ApproachDescriptor
  m_ssSensitiveSurfaces : Int
  m_ssApproachSurfaces : Int
  surfaceRepresentation : Surface

/-- The template argument `pars`: `momentumUnit` is `pars.momentum().unit()`. -/
structure TrackParameters where
  referenceSurface : Surface
  position : Vector3D
  momentumUnit : Vector3D
deriving DecidableEq, Repr

/-- The arguments of one call of `getCompatibleSurfaces`. -/
structure Query where
  pars : TrackParameters
  pDir : PropDirection
  bcheck : BoundaryCheck
  collectSensitive : Bool
  collectMaterial : Bool
  collectPassive : Bool
  searchType : Int
  startSurface : Option Surface
  endSurface : Option Surface
deriving DecidableEq, Repr

/-- One recorded call `surface.intersectionEstimate(gpos, gdir, forceDir, bcheck)`. -/
structure EstimatorCall where
  surface : Surface
  gpos : Vector3D
  gdir : Vector3D
  forceDir : Bool
  bcheck : BoundaryCheck
deriving DecidableEq, Repr

/-- The collection `cSurfaces` under construction, with the record of the
estimator calls made by `testCompatibleSurface` so far. -/
structure Collector where
  cSurfaces : List SurfaceIntersection
  probes : List EstimatorCall
deriving DecidableEq, Repr

/-- Outcome of a run: the end-surface call of line 58 when it was made, the
calls made by `testCompatibleSurface` in order, and the returned vector. -/
structure Run where
  endProbe : Option EstimatorCall
  probes : List EstimatorCall
  result : List SurfaceIntersection
deriving DecidableEq, Repr

/-- The comparison `pathLength < maxPathLength` of line 207, `none` being infinity. -/
def belowMax (pathLength : Int) : Option Int → Bool
  | none => true
  | some m => decide (pathLength < m)

/-- Line 41: `searchType % 2 ? BoundaryCheck(false) : bcheck`, with the truncating
remainder of C++. -/
def tCheck (q : Query) : BoundaryCheck :=
  if q.searchType.tmod 2 ≠ 0 then BoundaryCheck.ofBool false else q.bcheck

/-- Lines 48-50: the direction, reversed for `oppositeMomentum`. -/
def dir (q : Query) : Vector3D :=
  if q.pDir = PropDirection.oppositeMomentum then q.pars.momentumUnit.neg
  else q.pars.momentumUnit

/-- The arguments of the end-surface call of line 58,
`endSurface->intersectionEstimate(pos, dir, pDir, false)`: the enumeration value
`pDir` converts to the `bool` parameter `forceDir`, `false` to a `BoundaryCheck`. -/
def endCall (env : Env) (q : Query) (e : Surface) : EstimatorCall :=
  { surface := e, gpos := q.pars.position, gdir := dir q,
    forceDir := decide (env.propDirectionValue q.pDir ≠ 0),
    bcheck := BoundaryCheck.ofBool false }

/-- The estimator applied to a recorded call. -/
def Env.estimate (env : Env) (c : EstimatorCall) : Intersection :=
  env.intersectionEstimate c.surface c.gpos c.gdir c.forceDir c.bcheck

/-- Lines 57-58: `endInter`. -/
def endInter (env : Env) (q : Query) (e : Surface) : Intersection :=
  env.estimate (endCall env q e)

/-- Line 202: `fDirection`, whether the momentum direction is forced. -/
def fDirection (pDir : PropDirection) : Bool :=
  if pDir = PropDirection.anyDirection then false else true

/-- Lines 191-214: `testCompatibleSurface`. -/
def testCompatibleSurface (env : Env) (c : Collector) (surface : Surface)
    (pos dir : Vector3D) (pDir : PropDirection) (bcheck : BoundaryCheck)
    (maxPathLength : Option Int) : Collector :=
  let sfIntersection := env.intersectionEstimate surface pos dir (fDirection pDir) bcheck
  let probes := c.probes ++ [⟨surface, pos, dir, fDirection pDir, bcheck⟩]
  if sfIntersection.valid = true ∧ belowMax sfIntersection.pathLength maxPathLength = true then
    let rDir := if sfIntersection.pathLength > 0 then PropDirection.alongMomentum
      else PropDirection.oppositeMomentum
    { cSurfaces := c.cSurfaces ++ [⟨sfIntersection, surface, rDir⟩], probes := probes }
  else
    { cSurfaces := c.cSurfaces, probes := probes }

/-- The call `testCompatibleSurface(cSurfaces, s, pos, dir, pDir, tCheck, maxPathLength, ice)`
as the three sections make it. -/
def test (env : Env) (q : Query) (maxPathLength : Option Int) (c : Collector)
    (s : Surface) : Collector :=
  testCompatibleSurface env c s q.pars.position (dir q) q.pDir (tCheck q) maxPathLength

/-- Lines 82-89: body of the loop over the approach surfaces. -/
def approachStep (env : Env) (q : Query) (maxPathLength : Option Int) (c : Collector)
    (aSurface : Surface) : Collector :=
  if some aSurface = q.startSurface ∨ some aSurface = q.endSurface then c
  else if q.collectPassive = true ∨ env.associatedMaterial aSurface = true then
    test env q maxPathLength c aSurface
  else c

/-- Lines 74-90: section (A), the approach surfaces. -/
def approachSection (env : Env) (layer : Layer) (q : Query) (maxPathLength : Option Int)
    (c : Collector) : Collector :=
  match layer.m_approachDescriptor with
  | none => c
  | some ad =>
    if q.collectPassive = true ∨ (q.collectMaterial = true ∧ layer.m_ssApproachSurfaces > 1) then
      ad.containedSurfaces.foldl (approachStep env q maxPathLength) c
    else c

/-- Lines 116-124 and 152-160: body of the loops over the bin members. -/
def binmemberStep (env : Env) (q : Query) (collectPS : Bool)
    (ctestSurfaces : List (Option Surface)) (bmElement : DetectorElementBase) :
    List (Option Surface) :=
  let sSurface := env.surface bmElement
  if some sSurface = q.startSurface ∨ some sSurface = q.endSurface then ctestSurfaces
  else if collectPS = true ∨ env.associatedMaterial sSurface = true then
    ctestSurfaces ++ [some sSurface]
  else ctestSurfaces

/-- Lines 108-129: body of the loop over `allTestSurfaces`. The test of line 127
dereferences `atSurface` when `collectPS` is false. -/
def exhaustiveStep (env : Env) (q : Query) (collectPS : Bool)
    (ctestSurfaces : List (Option Surface)) (atSurface : Option Surface) :
    Option (List (Option Surface)) :=
  if atSurface = q.startSurface ∨ atSurface = q.endSurface then some ctestSurfaces
  else
    let withMates : List (Option Surface) :=
      match atSurface.bind env.associatedDetectorElement with
      | some de => (env.binmembers de).foldl (binmemberStep env q collectPS) ctestSurfaces
      | none => ctestSurfaces
    if collectPS = true then some (withMates ++ [atSurface])
    else
      match atSurface with
      | none => none
      | some s =>
        if env.associatedMaterial s = true then some (withMates ++ [atSurface])
        else some withMates

/-- Lines 103-129: the loop of the exhaustive search, from the current `ctestSurfaces`. -/
def exhaustiveLoop (env : Env) (q : Query) (collectPS : Bool) :
    List (Option Surface) → List (Option Surface) → Option (List (Option Surface))
  | [], ctestSurfaces => some ctestSurfaces
  | atSurface :: rest, ctestSurfaces =>
    match exhaustiveStep env q collectPS ctestSurfaces atSurface with
    | none => none
    | some next => exhaustiveLoop env q collectPS rest next

/-- Lines 143-161: body of the loop over `dElements`. -/
def localStep (env : Env) (q : Query) (collectPS : Bool)
    (ctestSurfaces : List (Option Surface)) (ade : DetectorElementBase) :
    List (Option Surface) :=
  let sSurface := env.surface ade
  if some sSurface = q.startSurface ∨ some sSurface = q.endSurface then ctestSurfaces
  else
    let withSelf : List (Option Surface) :=
      if collectPS = true ∨ env.associatedMaterial sSurface = true then
        ctestSurfaces ++ [some (env.surface ade)]
      else ctestSurfaces
    (env.binmembers ade).foldl (binmemberStep env q collectPS) withSelf

/-- Lines 130-163: the local search around the surface returned by `object(pos)`;
`dElements` is the neighbours followed by the element itself. -/
def localTestSurfaces (env : Env) (q : Query) (collectPS : Bool)
    (tSurface : Option Surface) : List (Option Surface) :=
  match tSurface.bind env.associatedDetectorElement with
  | none => []
  | some dElement =>
    let dElements := env.neighbours dElement ++ [dElement]
    dElements.foldl (localStep env q collectPS) []

/-- Lines 103-163: `ctestSurfaces` as gathered by either branch. -/
def gatherTestSurfaces (env : Env) (q : Query) (collectPS : Bool) (sa : SurfaceArray) :
    Option (List (Option Surface)) :=
  if q.searchType ≤ 0 then exhaustiveLoop env q collectPS sa.arrayObjects []
  else some (localTestSurfaces env q collectPS (sa.object q.pars.position))

/-- Lines 165-167: the loop testing `*ctSurface` for every gathered pointer. -/
def testAll (env : Env) (q : Query) (maxPathLength : Option Int) :
    List (Option Surface) → Collector → Option Collector
  | [], c => some c
  | none :: _, _ => none
  | some s :: rest, c => testAll env q maxPathLength rest (test env q maxPathLength c s)

/-- Lines 94-169: section (B), the sensitive surfaces. -/
def sensitiveSection (env : Env) (layer : Layer) (q : Query) (maxPathLength : Option Int)
    (c : Collector) : Option Collector :=
  let collectPS : Bool := q.collectPassive || q.collectSensitive
  match layer.m_surfaceArray with
  | none => some c
  | some sa =>
    if collectPS = true ∨ (q.collectMaterial = true ∧ layer.m_ssSensitiveSurfaces > 1) then
      match gatherTestSurfaces env q collectPS sa with
      | none => none
      | some ctestSurfaces => testAll env q maxPathLength ctestSurfaces c
    else some c

/-- Lines 174-182: section (C), the representing surface; `tSurface` is
`&(pars.referenceSurface())`. -/
def representingSection (env : Env) (layer : Layer) (q : Query) (maxPathLength : Option Int)
    (c : Collector) : Collector :=
  let layerSurface := layer.surfaceRepresentation
  if q.pars.referenceSurface ≠ layerSurface ∧ some layerSurface ≠ q.startSurface
      ∧ some layerSurface ≠ q.endSurface
      ∧ (q.collectPassive = true
          ∨ (q.collectMaterial = true ∧ env.associatedMaterial layerSurface = true)) then
    test env q maxPathLength c layerSurface
  else c

/-- Lines 69-182: the three sections in order, from an empty `cSurfaces`. -/
def collect (env : Env) (layer : Layer) (q : Query) (maxPathLength : Option Int) :
    Option Collector :=
  match sensitiveSection env layer q maxPathLength
      (approachSection env layer q maxPathLength ⟨[], []⟩) with
  | none => none
  | some c => some (representingSection env layer q maxPathLength c)

/-- Lines 184-188: `std::sort` and return. `std::sort` leaves the relative order of
elements of equal path length unspecified; the model sorts by insertion, and the
theorems below rely on order and membership only. -/
def finish (endProbe : Option EstimatorCall) (c : Option Collector) : Option Run :=
  match c with
  | none => none
  | some c => some ⟨endProbe, c.probes, c.cSurfaces.insertionSort SurfaceIntersection.le⟩

/-- Lines 20-189: `Layer::getCompatibleSurfaces`, with the record of its estimator
calls. -/
def getCompatibleSurfacesRun (env : Env) (layer : Layer) (q : Query) : Option Run :=
  if layer.m_surfaceArray.isNone = true ∨ layer.m_approachDescriptor.isNone = true then
    some ⟨none, [], []⟩
  else
    match q.endSurface with
    | none => finish none (collect env layer q none)
    | some e =>
      if (endInter env q e).valid = true ∧ (endInter env q e).pathLength > 0 then
        finish (some (endCall env q e)) (collect env layer q (some (endInter env q e).pathLength))
      else some ⟨some (endCall env q e), [], []⟩

/-- The vector returned by `Layer::getCompatibleSurfaces`. -/
def getCompatibleSurfaces (env : Env) (layer : Layer) (q : Query) :
    Option (List SurfaceIntersection) :=
  (getCompatibleSurfacesRun env layer q).map Run.result

/-! ## The search as a list of candidates -/

/-- The estimator call `testCompatibleSurface` makes for surface `s` in a query. -/
def probeCall (q : Query) (s : Surface) : EstimatorCall :=
  { surface := s, gpos := q.pars.position, gdir := dir q,
    forceDir := fDirection q.pDir,
    bcheck := tCheck q }

/-- The element `testCompatibleSurface` appends for surface `s`, if it appends one. -/
def accept (env : Env) (q : Query) (maxPathLength : Option Int) (s : Surface) :
    Option SurfaceIntersection :=
  let sfIntersection := env.estimate (probeCall q s)
  if sfIntersection.valid = true ∧ belowMax sfIntersection.pathLength maxPathLength = true then
    some ⟨sfIntersection, s,
      if sfIntersection.pathLength > 0 then PropDirection.alongMomentum
      else PropDirection.oppositeMomentum⟩
  else none

/-- The collector after `testCompatibleSurface` has been called on each surface of `ss`
in order. -/
def probeAll (env : Env) (q : Query) (maxPathLength : Option Int) (c : Collector)
    (ss : List Surface) : Collector :=
  ⟨c.cSurfaces ++ ss.filterMap (accept env q maxPathLength), c.probes ++ ss.map (probeCall q)⟩

/-- The veto of lines 84, 110, 120, 147, 156 and 176-177: the pointer is the start or the end surface. -/
def vetoed (q : Query) (s : Option Surface) : Prop :=
  s = q.startSurface ∨ s = q.endSurface

instance (q : Query) (s : Option Surface) : Decidable (vetoed q s) :=
  inferInstanceAs (Decidable (s = q.startSurface ∨ s = q.endSurface))

/-- The filter of lines 122, 127, 149 and 158: `collectPS` or a material marker. -/
def wanted (env : Env) (collectPS : Bool) (s : Surface) : Prop :=
  collectPS = true ∨ env.associatedMaterial s = true

instance (env : Env) (collectPS : Bool) (s : Surface) : Decidable (wanted env collectPS s) :=
  inferInstanceAs (Decidable (collectPS = true ∨ env.associatedMaterial s = true))

/-- Surfaces of the given bin members that pass the veto and the filter, in order. -/
def matesOf (env : Env) (q : Query) (collectPS : Bool) (bms : List DetectorElementBase) :
    List Surface :=
  (bms.map env.surface).filter (fun s => decide (¬ vetoed q (some s) ∧ wanted env collectPS s))

/-- Contribution of one non-null indexed surface to the exhaustive gather, as the code makes it. -/
def exhaustiveEntry (env : Env) (q : Query) (collectPS : Bool) (atSurface : Surface) :
    List Surface :=
  if vetoed q (some atSurface) then []
  else
    (match env.associatedDetectorElement atSurface with
      | none => []
      | some de => matesOf env q collectPS (env.binmembers de))
    ++ (if wanted env collectPS atSurface then [atSurface] else [])

/-- Contribution of one detector element to the local gather, as the code makes it. -/
def localEntry (env : Env) (q : Query) (collectPS : Bool) (ade : DetectorElementBase) :
    List Surface :=
  if vetoed q (some (env.surface ade)) then []
  else
    (if wanted env collectPS (env.surface ade) then [env.surface ade] else [])
    ++ matesOf env q collectPS (env.binmembers ade)

/-- The approach surfaces that section (A) hands to `testCompatibleSurface`. -/
def approachCandidates (env : Env) (layer : Layer) (q : Query) : List Surface :=
  match layer.m_approachDescriptor with
  | none => []
  | some ad =>
    if q.collectPassive = true ∨ (q.collectMaterial = true ∧ layer.m_ssApproachSurfaces > 1) then
      ad.containedSurfaces.filter
        (fun a => decide (¬ vetoed q (some a) ∧ wanted env q.collectPassive a))
    else []

/-- The representing surface when section (C) hands it to `testCompatibleSurface`. -/
def representingCandidates (env : Env) (layer : Layer) (q : Query) : List Surface :=
  if q.pars.referenceSurface ≠ layer.surfaceRepresentation
      ∧ ¬ vetoed q (some layer.surfaceRepresentation)
      ∧ (q.collectPassive = true
          ∨ (q.collectMaterial = true
              ∧ env.associatedMaterial layer.surfaceRepresentation = true)) then
    [layer.surfaceRepresentation]
  else []

/-- The ceiling `maxPathLength` of a run that passes the end-surface check. -/
def ceiling (env : Env) (q : Query) : Option Int :=
  q.endSurface.map (fun e => (endInter env q e).pathLength)

/-- The surfaces the local search gathers, as the code makes them. -/
def localCandidates (env : Env) (q : Query) (collectPS : Bool) (tSurface : Option Surface) :
    List Surface :=
  match tSurface.bind env.associatedDetectorElement with
  | none => []
  | some dElement => (env.neighbours dElement ++ [dElement]).flatMap (localEntry env q collectPS)

/-- The exhaustive gather as the specification words it: every
indexed surface contributing the surfaces of its bin members followed by
itself, each one dropped individually iff it is the start or end surface or
fails the filter. -/
def claimedExhaustive (env : Env) (q : Query) (collectPS : Bool) (ss : List Surface) :
    List Surface :=
  ss.flatMap (fun atSurface =>
    (match env.associatedDetectorElement atSurface with
      | none => []
      | some de => matesOf env q collectPS (env.binmembers de))
    ++ (if ¬ vetoed q (some atSurface) ∧ wanted env collectPS atSurface then [atSurface]
        else []))

/-- The local gather as the specification words it: every
element of the neighbours and the element itself contributing its surface and
its bin members' surfaces, each one dropped individually iff it is the start or
end surface or fails the filter. -/
def claimedLocal (env : Env) (q : Query) (collectPS : Bool) (dElement : DetectorElementBase) :
    List Surface :=
  (env.neighbours dElement ++ [dElement]).flatMap (fun ade =>
    (if ¬ vetoed q (some (env.surface ade)) ∧ wanted env collectPS (env.surface ade)
      then [env.surface ade] else [])
    ++ matesOf env q collectPS (env.binmembers ade))

instance : IsTotal SurfaceIntersection SurfaceIntersection.le :=
  ⟨fun a b => le_total a.intersection.pathLength b.intersection.pathLength⟩

instance : IsTrans SurfaceIntersection SurfaceIntersection.le :=
  ⟨fun _ _ _ hab hbc => le_trans hab hbc⟩

/-! ## Sample detector used to evaluate the functions -/

/-- Enumerator values `alongMomentum = 1`, `oppositeMomentum = -1`, `anyDirection = 0`. -/
def sampleValues : PropDirection → Int
  | PropDirection.alongMomentum => 1
  | PropDirection.oppositeMomentum => -1
  | PropDirection.anyDirection => 0

/-- Path length the sample estimator reports for each surface. -/
def samplePath : Surface → Int
  | 1 => 10
  | 2 => 20
  | 3 => 30
  | 4 => 15
  | 5 => -5
  | 6 => 12
  | 10 => 5
  | 11 => 45
  | 20 => 25
  | 30 => 40
  | _ => 0

/-- Sample surroundings: surfaces 1 to 6 carry the detector element of the same
number, element 1 has bin members 4 and 5 and neighbours 2 and 3, surfaces 10
and 20 carry material; surface 3 is missed under a checking containment mode
and a forced direction rejects non-positive path lengths. -/
def sampleEnv : Env where
  associatedMaterial := fun s => s == 10 || s == 20
  associatedDetectorElement := fun s => if 1 ≤ s ∧ s ≤ 6 then some s else none
  surface := fun d => d
  binmembers := fun d => if d = 1 then [4, 5] else []
  neighbours := fun d => if d = 1 then [2, 3] else []
  intersectionEstimate := fun s pos _ force bc =>
    ⟨pos, samplePath s, (!bc.checkLoc || s != 3) && (!force || decide (samplePath s > 0))⟩
  propDirectionValue := sampleValues

/-- Sample surroundings for the local search: as `sampleEnv`, but the only bin
member is element 6, of element 2. -/
def sampleEnvLocal : Env :=
  { sampleEnv with binmembers := fun d => if d = 2 then [6] else [] }

/-- Index of the sample layer: surfaces 1, 2, 3; every position resolves to surface 1. -/
def sampleArray : SurfaceArray := ⟨[some 1, some 2, some 3], fun _ => some 1⟩

/-- Sample layer with index, approach surfaces 10 and 11, representing surface 20. -/
def sampleLayer : Layer where
  m_surfaceArray := some sampleArray
  m_approachDescriptor := some ⟨[10, 11]⟩
  m_ssSensitiveSurfaces := 3
  m_ssApproachSurfaces := 2
  surfaceRepresentation := 20

/-- The sample layer without its approach descriptor. -/
def sampleLayerIndexOnly : Layer := { sampleLayer with m_approachDescriptor := none }

/-- The sample layer without its index. -/
def sampleLayerApproachOnly : Layer := { sampleLayer with m_surfaceArray := none }

/-- A layer with neither index nor approach descriptor. -/
def sampleLayerBare : Layer :=
  { sampleLayer with m_surfaceArray := none, m_approachDescriptor := none }

/-- Sample query: exhaustive search collecting everything, end surface 30. -/
def sampleQuery : Query where
  pars := ⟨0, ⟨0, 0, 0⟩, ⟨0, 0, 1⟩⟩
  pDir := PropDirection.alongMomentum
  bcheck := ⟨true, 3⟩
  collectSensitive := true
  collectMaterial := true
  collectPassive := true
  searchType := 0
  startSurface := none
  endSurface := some 30

/-- The sample query with only `collectPassive` set and no end surface. -/
def samplePassiveQuery : Query :=
  { sampleQuery with collectSensitive := false, collectMaterial := false, endSurface := none }

/-- Hit built by `testCompatibleSurface` in the sample runs. -/
def sampleHit (s : Surface) (pathLength : Int) : SurfaceIntersection :=
  ⟨⟨⟨0, 0, 0⟩, pathLength, true⟩, s, PropDirection.alongMomentum⟩

/-- Vector returned for the sample query on the sample layer. -/
def sampleResult : List SurfaceIntersection :=
  [sampleHit 10 5, sampleHit 1 10, sampleHit 4 15, sampleHit 2 20, sampleHit 20 25]

/-- The passive sample query with indexed surface 1 as start surface. -/
def sampleStartQuery : Query := { samplePassiveQuery with startSurface := some 1 }

/-- The passive sample query in local mode with surface 2, a neighbour, as start surface. -/
def sampleLocalStartQuery : Query :=
  { samplePassiveQuery with searchType := 1, startSurface := some 2 }

/-- The sample query with an odd negative search type and no forced direction. -/
def sampleOddQuery : Query :=
  { sampleQuery with searchType := -1, pDir := PropDirection.anyDirection }

/-- The pointers section (B) hands to its probing loop: the gathered `ctestSurfaces`
when the section runs, nothing when it does not. -/
def sensitiveTestSurfaces (env : Env) (layer : Layer) (q : Query) :
    Option (List (Option Surface)) :=
  match layer.m_surfaceArray with
  | none => some []
  | some sa =>
    if (q.collectPassive || q.collectSensitive) = true
        ∨ (q.collectMaterial = true ∧ layer.m_ssSensitiveSurfaces > 1) then
      gatherTestSurfaces env q (q.collectPassive || q.collectSensitive) sa
    else some []

/-- The condition of lines 176-179 under which section (C) probes the representing
surface. -/
def representingTested (env : Env) (layer : Layer) (q : Query) : Prop :=
  q.pars.referenceSurface ≠ layer.surfaceRepresentation
    ∧ some layer.surfaceRepresentation ≠ q.startSurface
    ∧ some layer.surfaceRepresentation ≠ q.endSurface
    ∧ (q.collectPassive = true
        ∨ (q.collectMaterial = true
            ∧ env.associatedMaterial layer.surfaceRepresentation = true))

instance (env : Env) (layer : Layer) (q : Query) : Decidable (representingTested env layer q) :=
  inferInstanceAs (Decidable (_ ∧ _ ∧ _ ∧ _))

/-- The fast exit of line 38 is not taken and the end-surface check of lines 54-67 does
not return. -/
def reachesSections (env : Env) (layer : Layer) (q : Query) : Prop :=
  layer.m_surfaceArray.isSome = true ∧ layer.m_approachDescriptor.isSome = true
    ∧ ∀ e : Surface, q.endSurface = some e →
        (endInter env q e).valid = true ∧ (endInter env q e).pathLength > 0

instance (env : Env) (layer : Layer) (q : Query) : Decidable (reachesSections env layer q) :=
  match h : q.endSurface with
  | none => decidable_of_iff
      (layer.m_surfaceArray.isSome = true ∧ layer.m_approachDescriptor.isSome = true)
      (by unfold reachesSections; rw [h]; simp)
  | some e => decidable_of_iff
      (layer.m_surfaceArray.isSome = true ∧ layer.m_approachDescriptor.isSome = true
        ∧ (endInter env q e).valid = true ∧ (endInter env q e).pathLength > 0)
      (by unfold reachesSections; rw [h]; simp)

/-- Sample surroundings in which elements 1 and 2 are bin members of each other. -/
def sampleEnvMutual : Env :=
  { sampleEnv with binmembers := fun d => if d = 1 then [2] else if d = 2 then [1] else [] }

/-- Sample layer whose index holds surfaces 1 and 2, with no approach surface. -/
def sampleLayerMutual : Layer :=
  { sampleLayer with
    m_surfaceArray := some ⟨[some 1, some 2], fun _ => some 1⟩,
    m_approachDescriptor := some ⟨[]⟩ }

/-- Record and result of the sample query on the sample layer. -/
def sampleRun : Run :=
  ⟨some ⟨30, ⟨0, 0, 0⟩, ⟨0, 0, 1⟩, true, ⟨false, 0⟩⟩,
    [10, 11, 4, 5, 1, 2, 3, 20].map (probeCall sampleQuery), sampleResult⟩

/-- The surroundings with every material marker removed. -/
def Env.noMaterial (env : Env) : Env :=
  { env with associatedMaterial := fun _ => false }

/-- The layer with both cached counts set to zero. -/
def Layer.noCounts (layer : Layer) : Layer :=
  { layer with m_ssSensitiveSurfaces := 0, m_ssApproachSurfaces := 0 }

/-- The query with `collectSensitive` and `collectMaterial` cleared. -/
def Query.passiveOnly (q : Query) : Query :=
  { q with collectSensitive := false, collectMaterial := false }

/-- The sample query collecting material only. -/
def sampleMaterialQuery : Query :=
  { sampleQuery with collectSensitive := false, collectPassive := false }

/-- Sample layer with one approach surface (10, carrying material), one indexed surface
(1, without material) and both cached counts equal to one. -/
def sampleLayerSmall : Layer where
  m_surfaceArray := some ⟨[some 1], fun _ => some 1⟩
  m_approachDescriptor := some ⟨[10]⟩
  m_ssSensitiveSurfaces := 1
  m_ssApproachSurfaces := 1
  surfaceRepresentation := 20

/-- The sample layer with an index whose lookup finds no surface at any position. -/
def sampleLayerNoHit : Layer :=
  { sampleLayer with m_surfaceArray := some ⟨[some 1, some 2, some 3], fun _ => none⟩ }

/-- The sample layer whose approach descriptor lists the representing surface 20 itself. -/
def sampleLayerAliased : Layer := { sampleLayer with m_approachDescriptor := some ⟨[20]⟩ }

/-- The sample query with track parameters lying on the representing surface 20. -/
def sampleOnLayerQuery : Query :=
  { sampleQuery with pars := ⟨20, ⟨0, 0, 0⟩, ⟨0, 0, 1⟩⟩ }

/-! ## Auxiliary lemmas -/

theorem test_eq (env : Env) (q : Query) (m : Option Int) (c : Collector) (s : Surface) :
    test env q m c s = probeAll env q m c [s] := by
  simp only [test, testCompatibleSurface, probeAll, accept, Env.estimate, probeCall,
    List.filterMap_cons, List.filterMap_nil, List.map_cons, List.map_nil]
  split <;> simp

theorem probeAll_nil (env : Env) (q : Query) (m : Option Int) (c : Collector) :
    probeAll env q m c [] = c := by
  simp [probeAll]

theorem probeAll_append (env : Env) (q : Query) (m : Option Int) (c : Collector)
    (xs ys : List Surface) :
    probeAll env q m (probeAll env q m c xs) ys = probeAll env q m c (xs ++ ys) := by
  simp [probeAll]

theorem foldl_test (env : Env) (q : Query) (m : Option Int) (ss : List Surface) :
    ∀ c : Collector, ss.foldl (test env q m) c = probeAll env q m c ss := by
  induction ss with
  | nil => intro c; simp [probeAll_nil]
  | cons s rest ih =>
    intro c
    rw [List.foldl_cons, ih, test_eq, probeAll_append]
    rfl

theorem matesOf_cons (env : Env) (q : Query) (cps : Bool) (b : DetectorElementBase)
    (rest : List DetectorElementBase) :
    matesOf env q cps (b :: rest)
      = (if ¬ vetoed q (some (env.surface b)) ∧ wanted env cps (env.surface b)
          then [env.surface b] else []) ++ matesOf env q cps rest := by
  unfold matesOf
  rw [List.map_cons, List.filter_cons]
  by_cases h : ¬ vetoed q (some (env.surface b)) ∧ wanted env cps (env.surface b)
  · rw [if_pos (decide_eq_true h), if_pos h]; rfl
  · rw [if_neg (by simpa using h), if_neg h]; rfl

theorem binmemberStep_eq (env : Env) (q : Query) (cps : Bool) (acc : List (Option Surface))
    (b : DetectorElementBase) :
    binmemberStep env q cps acc b
      = acc ++ (if ¬ vetoed q (some (env.surface b)) ∧ wanted env cps (env.surface b)
          then [env.surface b] else []).map some := by
  simp only [binmemberStep]
  by_cases hv : some (env.surface b) = q.startSurface ∨ some (env.surface b) = q.endSurface
  · rw [if_pos hv, if_neg (fun h => h.1 hv)]; simp
  · by_cases hw : cps = true ∨ env.associatedMaterial (env.surface b) = true
    · rw [if_neg hv, if_pos hw, if_pos ⟨hv, hw⟩]; rfl
    · rw [if_neg hv, if_neg hw, if_neg (fun h => hw h.2)]; simp

theorem foldl_binmemberStep (env : Env) (q : Query) (cps : Bool)
    (bms : List DetectorElementBase) :
    ∀ acc : List (Option Surface),
      bms.foldl (binmemberStep env q cps) acc = acc ++ (matesOf env q cps bms).map some := by
  induction bms with
  | nil => intro acc; simp [matesOf]
  | cons b rest ih =>
    intro acc
    rw [List.foldl_cons, ih, binmemberStep_eq, matesOf_cons, List.map_append, List.append_assoc]

theorem exhaustiveStep_some (env : Env) (q : Query) (cps : Bool)
    (acc : List (Option Surface)) (s : Surface) :
    exhaustiveStep env q cps acc (some s) = some (acc ++ (exhaustiveEntry env q cps s).map some) := by
  simp only [exhaustiveStep, exhaustiveEntry]
  by_cases hv : some s = q.startSurface ∨ some s = q.endSurface
  · have hv2 : vetoed q (some s) := hv
    rw [if_pos hv, if_pos hv2]; simp
  · have hv2 : ¬ vetoed q (some s) := hv
    rw [if_neg hv, if_neg hv2]
    have hmates : (match (some s).bind env.associatedDetectorElement with
        | some de => (env.binmembers de).foldl (binmemberStep env q cps) acc
        | none => acc)
        = acc ++ (match env.associatedDetectorElement s with
          | none => []
          | some de => matesOf env q cps (env.binmembers de)).map some := by
      rw [Option.some_bind]
      cases env.associatedDetectorElement s with
      | none => simp
      | some de => simp [foldl_binmemberStep]
    simp only [hmates]
    by_cases hc : cps = true
    · have hw : wanted env cps s := Or.inl hc
      rw [if_pos hc, if_pos hw]; simp
    · rw [if_neg hc]
      by_cases hm : env.associatedMaterial s = true
      · have hw : wanted env cps s := Or.inr hm
        rw [if_pos hm, if_pos hw]; simp
      · have hw : ¬ wanted env cps s := fun h => h.elim hc hm
        rw [if_neg hm, if_neg hw]; simp

theorem exhaustiveLoop_map_some (env : Env) (q : Query) (cps : Bool) (ss : List Surface) :
    ∀ acc : List (Option Surface),
      exhaustiveLoop env q cps (ss.map some) acc
        = some (acc ++ (ss.flatMap (exhaustiveEntry env q cps)).map some) := by
  induction ss with
  | nil => intro acc; simp [exhaustiveLoop]
  | cons s rest ih =>
    intro acc
    simp only [List.map_cons, exhaustiveLoop, exhaustiveStep_some, ih, List.flatMap_cons,
      List.map_append, List.append_assoc]

theorem localStep_eq (env : Env) (q : Query) (cps : Bool)
    (acc : List (Option Surface)) (ade : DetectorElementBase) :
    localStep env q cps acc ade = acc ++ (localEntry env q cps ade).map some := by
  simp only [localStep, localEntry]
  by_cases hv : some (env.surface ade) = q.startSurface ∨ some (env.surface ade) = q.endSurface
  · have hv2 : vetoed q (some (env.surface ade)) := hv
    rw [if_pos hv, if_pos hv2]; simp
  · have hv2 : ¬ vetoed q (some (env.surface ade)) := hv
    rw [if_neg hv, if_neg hv2]
    simp only [foldl_binmemberStep]
    by_cases hw : cps = true ∨ env.associatedMaterial (env.surface ade) = true
    · have hw2 : wanted env cps (env.surface ade) := hw
      rw [if_pos hw, if_pos hw2]; simp
    · have hw2 : ¬ wanted env cps (env.surface ade) := hw
      rw [if_neg hw, if_neg hw2]; simp

theorem foldl_localStep (env : Env) (q : Query) (cps : Bool) (ds : List DetectorElementBase) :
    ∀ acc : List (Option Surface),
      ds.foldl (localStep env q cps) acc
        = acc ++ (ds.flatMap (localEntry env q cps)).map some := by
  induction ds with
  | nil => intro acc; simp
  | cons d rest ih =>
    intro acc
    simp only [List.foldl_cons, ih, localStep_eq, List.flatMap_cons, List.map_append,
      List.append_assoc]

theorem approachStep_eq (env : Env) (q : Query) (m : Option Int) (c : Collector) (a : Surface) :
    approachStep env q m c a
      = probeAll env q m c
          (if ¬ vetoed q (some a) ∧ wanted env q.collectPassive a then [a] else []) := by
  simp only [approachStep]
  by_cases hv : some a = q.startSurface ∨ some a = q.endSurface
  · rw [if_pos hv, if_neg (fun h => h.1 hv), probeAll_nil]
  · by_cases hw : q.collectPassive = true ∨ env.associatedMaterial a = true
    · rw [if_neg hv, if_pos hw, if_pos ⟨hv, hw⟩, test_eq]
    · rw [if_neg hv, if_neg hw, if_neg (fun h => hw h.2), probeAll_nil]

theorem foldl_approachStep (env : Env) (q : Query) (m : Option Int) (l : List Surface) :
    ∀ c : Collector, l.foldl (approachStep env q m) c
      = probeAll env q m c
          (l.filter (fun a => decide (¬ vetoed q (some a) ∧ wanted env q.collectPassive a))) := by
  induction l with
  | nil => intro c; simp [probeAll_nil]
  | cons a rest ih =>
    intro c
    rw [List.foldl_cons, ih, approachStep_eq, probeAll_append, List.filter_cons]
    by_cases h : ¬ vetoed q (some a) ∧ wanted env q.collectPassive a
    · rw [if_pos h, if_pos (decide_eq_true h)]; rfl
    · rw [if_neg h, if_neg (by simpa using h)]; rfl

theorem approachSection_eq (env : Env) (layer : Layer) (q : Query) (m : Option Int)
    (c : Collector) :
    approachSection env layer q m c = probeAll env q m c (approachCandidates env layer q) := by
  unfold approachSection approachCandidates
  cases layer.m_approachDescriptor with
  | none => simp [probeAll_nil]
  | some ad =>
    simp only
    split
    · exact foldl_approachStep env q m _ c
    · exact (probeAll_nil env q m c).symm

theorem representingSection_eq (env : Env) (layer : Layer) (q : Query) (m : Option Int)
    (c : Collector) :
    representingSection env layer q m c
      = probeAll env q m c (representingCandidates env layer q) := by
  simp only [representingSection, representingCandidates]
  by_cases h : q.pars.referenceSurface ≠ layer.surfaceRepresentation
      ∧ some layer.surfaceRepresentation ≠ q.startSurface
      ∧ some layer.surfaceRepresentation ≠ q.endSurface
      ∧ (q.collectPassive = true
          ∨ (q.collectMaterial = true
              ∧ env.associatedMaterial layer.surfaceRepresentation = true))
  · have h2 : q.pars.referenceSurface ≠ layer.surfaceRepresentation
        ∧ ¬ vetoed q (some layer.surfaceRepresentation)
        ∧ (q.collectPassive = true
            ∨ (q.collectMaterial = true
                ∧ env.associatedMaterial layer.surfaceRepresentation = true)) :=
      ⟨h.1, fun hv => hv.elim h.2.1 h.2.2.1, h.2.2.2⟩
    rw [if_pos h, if_pos h2, test_eq]
  · have h2 : ¬ (q.pars.referenceSurface ≠ layer.surfaceRepresentation
        ∧ ¬ vetoed q (some layer.surfaceRepresentation)
        ∧ (q.collectPassive = true
            ∨ (q.collectMaterial = true
                ∧ env.associatedMaterial layer.surfaceRepresentation = true))) :=
      fun h2 => h ⟨h2.1, fun hs => h2.2.1 (Or.inl hs), fun he => h2.2.1 (Or.inr he), h2.2.2⟩
    rw [if_neg h, if_neg h2, probeAll_nil]

theorem testAll_map_some (env : Env) (q : Query) (m : Option Int) (ss : List Surface) :
    ∀ c : Collector, testAll env q m (ss.map some) c = some (probeAll env q m c ss) := by
  induction ss with
  | nil => intro c; simp [testAll, probeAll_nil]
  | cons s rest ih =>
    intro c
    rw [List.map_cons, testAll, ih, test_eq, probeAll_append]
    rfl

theorem testAll_eq_some (env : Env) (q : Query) (m : Option Int) (l : List (Option Surface)) :
    ∀ c c' : Collector, testAll env q m l c = some c' →
      ∃ ss : List Surface, l = ss.map some ∧ c' = probeAll env q m c ss := by
  induction l with
  | nil =>
    intro c c' h
    refine ⟨[], rfl, ?_⟩
    simp only [testAll, Option.some.injEq] at h
    rw [probeAll_nil]; exact h.symm
  | cons t rest ih =>
    intro c c' h
    cases t with
    | none => simp [testAll] at h
    | some s =>
      rw [testAll] at h
      obtain ⟨ss, hl, hc⟩ := ih _ _ h
      refine ⟨s :: ss, by rw [hl]; rfl, ?_⟩
      rw [hc, test_eq, probeAll_append]; rfl

theorem not_vetoed_of_mem_matesOf (env : Env) (q : Query) (cps : Bool)
    (bms : List DetectorElementBase) (s : Surface) (h : s ∈ matesOf env q cps bms) :
    ¬ vetoed q (some s) := by
  unfold matesOf at h
  rw [List.mem_filter] at h
  exact (of_decide_eq_true h.2).1

theorem not_vetoed_of_mem_exhaustiveEntry (env : Env) (q : Query) (cps : Bool)
    (a s : Surface) (h : s ∈ exhaustiveEntry env q cps a) : ¬ vetoed q (some s) := by
  unfold exhaustiveEntry at h
  by_cases hv : vetoed q (some a)
  · rw [if_pos hv] at h; simp at h
  · rw [if_neg hv, List.mem_append] at h
    rcases h with h | h
    · cases hde : env.associatedDetectorElement a with
      | none => rw [hde] at h; simp at h
      | some de =>
        rw [hde] at h
        exact not_vetoed_of_mem_matesOf env q cps _ s h
    · by_cases hw : wanted env cps a
      · rw [if_pos hw, List.mem_singleton] at h
        rw [h]; exact hv
      · rw [if_neg hw] at h; simp at h

theorem not_vetoed_of_mem_localEntry (env : Env) (q : Query) (cps : Bool)
    (ade : DetectorElementBase) (s : Surface) (h : s ∈ localEntry env q cps ade) :
    ¬ vetoed q (some s) := by
  unfold localEntry at h
  by_cases hv : vetoed q (some (env.surface ade))
  · rw [if_pos hv] at h; simp at h
  · rw [if_neg hv, List.mem_append] at h
    rcases h with h | h
    · by_cases hw : wanted env cps (env.surface ade)
      · rw [if_pos hw, List.mem_singleton] at h
        rw [h]; exact hv
      · rw [if_neg hw] at h; simp at h
    · exact not_vetoed_of_mem_matesOf env q cps _ s h

theorem exhaustiveStep_none (env : Env) (q : Query) (cps : Bool)
    (acc : List (Option Surface)) :
    exhaustiveStep env q cps acc none
      = if vetoed q none then some acc else if cps = true then some (acc ++ [none]) else none := by
  simp only [exhaustiveStep, Option.none_bind]
  by_cases hv : none = q.startSurface ∨ none = q.endSurface
  · have hv2 : vetoed q none := hv
    rw [if_pos hv, if_pos hv2]
  · have hv2 : ¬ vetoed q none := hv
    rw [if_neg hv, if_neg hv2]

theorem exhaustiveStep_not_vetoed (env : Env) (q : Query) (cps : Bool)
    (acc l : List (Option Surface)) (a : Option Surface)
    (h : exhaustiveStep env q cps acc a = some l) (hacc : ∀ t ∈ acc, ¬ vetoed q t) :
    ∀ t ∈ l, ¬ vetoed q t := by
  cases a with
  | none =>
    rw [exhaustiveStep_none] at h
    by_cases hv : vetoed q none
    · rw [if_pos hv, Option.some.injEq] at h
      rw [← h]; exact hacc
    · rw [if_neg hv] at h
      by_cases hc : cps = true
      · rw [if_pos hc, Option.some.injEq] at h
        rw [← h]
        intro t ht
        rw [List.mem_append, List.mem_singleton] at ht
        rcases ht with ht | ht
        · exact hacc t ht
        · rw [ht]; exact hv
      · rw [if_neg hc] at h; exact absurd h (by simp)
  | some s =>
    rw [exhaustiveStep_some, Option.some.injEq] at h
    rw [← h]
    intro t ht
    rw [List.mem_append, List.mem_map] at ht
    rcases ht with ht | ⟨x, hx, rfl⟩
    · exact hacc t ht
    · exact not_vetoed_of_mem_exhaustiveEntry env q cps s x hx

theorem exhaustiveLoop_not_vetoed (env : Env) (q : Query) (cps : Bool)
    (objs : List (Option Surface)) :
    ∀ acc l : List (Option Surface), exhaustiveLoop env q cps objs acc = some l →
      (∀ t ∈ acc, ¬ vetoed q t) → ∀ t ∈ l, ¬ vetoed q t := by
  induction objs with
  | nil =>
    intro acc l h hacc
    simp only [exhaustiveLoop, Option.some.injEq] at h
    rw [← h]; exact hacc
  | cons a rest ih =>
    intro acc l h hacc
    rw [exhaustiveLoop] at h
    cases hstep : exhaustiveStep env q cps acc a with
    | none => rw [hstep] at h; exact absurd h (by simp)
    | some next =>
      rw [hstep] at h
      exact ih next l h (exhaustiveStep_not_vetoed env q cps acc next a hstep hacc)

theorem localTestSurfaces_eq (env : Env) (q : Query) (cps : Bool) (t : Option Surface) :
    localTestSurfaces env q cps t = (localCandidates env q cps t).map some := by
  unfold localTestSurfaces localCandidates
  cases t.bind env.associatedDetectorElement with
  | none => rfl
  | some d => simp only [foldl_localStep, List.nil_append]

theorem gatherTestSurfaces_not_vetoed (env : Env) (q : Query) (cps : Bool) (sa : SurfaceArray)
    (l : List (Option Surface)) (h : gatherTestSurfaces env q cps sa = some l) :
    ∀ t ∈ l, ¬ vetoed q t := by
  unfold gatherTestSurfaces at h
  by_cases hs : q.searchType ≤ 0
  · rw [if_pos hs] at h
    exact exhaustiveLoop_not_vetoed env q cps _ [] l h (by simp)
  · rw [if_neg hs, Option.some.injEq, localTestSurfaces_eq] at h
    rw [← h]
    intro t ht
    rw [List.mem_map] at ht
    obtain ⟨x, hx, rfl⟩ := ht
    unfold localCandidates at hx
    cases hd : (sa.object q.pars.position).bind env.associatedDetectorElement with
    | none => rw [hd] at hx; simp at hx
    | some d =>
      rw [hd] at hx
      simp only [List.mem_flatMap] at hx
      obtain ⟨ade, _, hade⟩ := hx
      exact not_vetoed_of_mem_localEntry env q cps ade x hade

theorem sensitiveSection_eq_some (env : Env) (layer : Layer) (q : Query) (m : Option Int)
    (c c' : Collector) (h : sensitiveSection env layer q m c = some c') :
    ∃ ss : List Surface, (∀ s ∈ ss, ¬ vetoed q (some s)) ∧ c' = probeAll env q m c ss := by
  simp only [sensitiveSection] at h
  cases hsa : layer.m_surfaceArray with
  | none =>
    rw [hsa] at h
    simp only [Option.some.injEq] at h
    exact ⟨[], by simp, by rw [probeAll_nil]; exact h.symm⟩
  | some sa =>
    rw [hsa] at h
    simp only at h
    split at h
    · cases hg : gatherTestSurfaces env q (q.collectPassive || q.collectSensitive) sa with
      | none => rw [hg] at h; exact absurd h (by simp)
      | some l =>
        rw [hg] at h
        simp only at h
        obtain ⟨ss, hl, hc⟩ := testAll_eq_some env q m l c c' h
        refine ⟨ss, ?_, hc⟩
        intro s hs
        apply gatherTestSurfaces_not_vetoed env q _ sa l hg
        rw [hl]; exact List.mem_map_of_mem some hs
    · simp only [Option.some.injEq] at h
      exact ⟨[], by simp, by rw [probeAll_nil]; exact h.symm⟩

theorem not_vetoed_of_mem_approachCandidates (env : Env) (layer : Layer) (q : Query) (s : Surface)
    (h : s ∈ approachCandidates env layer q) : ¬ vetoed q (some s) := by
  unfold approachCandidates at h
  cases had : layer.m_approachDescriptor with
  | none => rw [had] at h; simp at h
  | some ad =>
    rw [had] at h
    simp only at h
    split at h
    · rw [List.mem_filter] at h
      exact (of_decide_eq_true h.2).1
    · simp at h

theorem not_vetoed_of_mem_representingCandidates (env : Env) (layer : Layer) (q : Query)
    (s : Surface) (h : s ∈ representingCandidates env layer q) : ¬ vetoed q (some s) := by
  unfold representingCandidates at h
  split at h
  · rename_i hc
    rw [List.mem_singleton] at h
    rw [h]; exact hc.2.1
  · simp at h

theorem collect_eq_some (env : Env) (layer : Layer) (q : Query) (m : Option Int) (c : Collector)
    (h : collect env layer q m = some c) :
    ∃ cands : List Surface, (∀ s ∈ cands, ¬ vetoed q (some s)) ∧
      c = probeAll env q m ⟨[], []⟩ cands := by
  unfold collect at h
  rw [approachSection_eq] at h
  cases hs : sensitiveSection env layer q m
      (probeAll env q m ⟨[], []⟩ (approachCandidates env layer q)) with
  | none => rw [hs] at h; exact absurd h (by simp)
  | some c1 =>
    rw [hs] at h
    simp only [Option.some.injEq] at h
    obtain ⟨ss, hss, hc1⟩ := sensitiveSection_eq_some env layer q m _ c1 hs
    refine ⟨approachCandidates env layer q ++ ss ++ representingCandidates env layer q, ?_, ?_⟩
    · intro s hmem
      rw [List.mem_append, List.mem_append] at hmem
      rcases hmem with (hmem | hmem) | hmem
      · exact not_vetoed_of_mem_approachCandidates env layer q s hmem
      · exact hss s hmem
      · exact not_vetoed_of_mem_representingCandidates env layer q s hmem
    · rw [← h, representingSection_eq, hc1, probeAll_append, probeAll_append, List.append_assoc]

theorem run_shape (env : Env) (layer : Layer) (q : Query) (r : Run)
    (h : getCompatibleSurfacesRun env layer q = some r) :
    ∃ cands : List Surface, (∀ s ∈ cands, ¬ vetoed q (some s)) ∧
      r.probes = cands.map (probeCall q) ∧
      r.result = (cands.filterMap (accept env q (ceiling env q))).insertionSort
        SurfaceIntersection.le := by
  have hnil : ∀ ep : Option EstimatorCall, some (Run.mk ep [] []) = some r →
      ∃ cands : List Surface, (∀ s ∈ cands, ¬ vetoed q (some s)) ∧
        r.probes = cands.map (probeCall q) ∧
        r.result = (cands.filterMap (accept env q (ceiling env q))).insertionSort
          SurfaceIntersection.le := by
    intro ep hr
    rw [Option.some.injEq] at hr
    refine ⟨[], by simp, ?_, ?_⟩ <;> rw [← hr] <;> rfl
  have hfin : ∀ (ep : Option EstimatorCall) (m : Option Int), m = ceiling env q →
      finish ep (collect env layer q m) = some r →
      ∃ cands : List Surface, (∀ s ∈ cands, ¬ vetoed q (some s)) ∧
        r.probes = cands.map (probeCall q) ∧
        r.result = (cands.filterMap (accept env q (ceiling env q))).insertionSort
          SurfaceIntersection.le := by
    intro ep m hm hr
    cases hc : collect env layer q m with
    | none => rw [hc] at hr; exact absurd hr (by simp [finish])
    | some c =>
      rw [hc] at hr
      simp only [finish, Option.some.injEq] at hr
      obtain ⟨cands, hv, hcc⟩ := collect_eq_some env layer q m c hc
      refine ⟨cands, hv, ?_, ?_⟩
      · rw [← hr, hcc]; simp [probeAll]
      · rw [← hr, hcc, ← hm]; simp [probeAll]
  unfold getCompatibleSurfacesRun at h
  split at h
  · exact hnil none h
  · cases he : q.endSurface with
    | none =>
      rw [he] at h
      exact hfin none none (by simp [ceiling, he]) h
    | some e =>
      rw [he] at h
      simp only at h
      split at h
      · exact hfin _ _ (by simp [ceiling, he]) h
      · exact hnil _ h

theorem tmod_two_ne_zero_iff_odd (n : Int) : n.tmod 2 ≠ 0 ↔ Odd n := by
  rw [← Int.not_even_iff_odd, even_iff_two_dvd]
  constructor
  · intro h hd
    exact h (Int.tmod_eq_zero_of_dvd hd)
  · intro h hz
    exact h (Int.dvd_of_tmod_eq_zero hz)

theorem tCheck_of_odd (q : Query) (h : Odd q.searchType) : tCheck q = BoundaryCheck.ofBool false := by
  unfold tCheck
  rw [if_pos ((tmod_two_ne_zero_iff_odd _).mpr h)]

theorem tCheck_of_even (q : Query) (h : Even q.searchType) : tCheck q = q.bcheck := by
  unfold tCheck
  rw [if_neg]
  intro hne
  exact (Int.not_even_iff_odd.mpr ((tmod_two_ne_zero_iff_odd _).mp hne)) h

theorem accept_eq_some (env : Env) (q : Query) (m : Option Int) (s : Surface)
    (x : SurfaceIntersection) (h : accept env q m s = some x) :
    x.object = s ∧ x.intersection.valid = true ∧ belowMax x.intersection.pathLength m = true := by
  simp only [accept] at h
  split at h
  · rename_i hc
    rw [Option.some.injEq] at h
    rw [← h]
    exact ⟨rfl, hc.1, hc.2⟩
  · exact absurd h (by simp)

theorem mem_result (env : Env) (layer : Layer) (q : Query) (r : List SurfaceIntersection)
    (h : getCompatibleSurfaces env layer q = some r) (x : SurfaceIntersection) (hx : x ∈ r) :
    ¬ vetoed q (some x.object) ∧ x.intersection.valid = true
      ∧ belowMax x.intersection.pathLength (ceiling env q) = true := by
  unfold getCompatibleSurfaces at h
  cases hrun : getCompatibleSurfacesRun env layer q with
  | none => rw [hrun] at h; exact absurd h (by simp)
  | some run =>
    rw [hrun, Option.map_some', Option.some.injEq] at h
    obtain ⟨cands, hv, _, hres⟩ := run_shape env layer q run hrun
    rw [← h, hres, List.mem_insertionSort, List.mem_filterMap] at hx
    obtain ⟨s, hs, hacc⟩ := hx
    obtain ⟨ho, hvalid, hbelow⟩ := accept_eq_some env q _ s x hacc
    exact ⟨by rw [ho]; exact hv s hs, hvalid, hbelow⟩

/-- With pairwise distinct enumerator values, of two queries in different directions at
least one probes the end surface with a forced direction. -/
theorem forced_of_injective (env : Env) (hinj : Function.Injective env.propDirectionValue)
    (q q' : Query) (e : Surface) (hne : q.pDir ≠ q'.pDir) :
    (endCall env q e).forceDir = true ∨ (endCall env q' e).forceDir = true := by
  by_cases h : env.propDirectionValue q.pDir = 0
  · right
    simp only [endCall, decide_eq_true_eq]
    intro h'
    exact hne (hinj (h.trans h'.symm))
  · left
    simp only [endCall, decide_eq_true_eq]
    exact h

/-- A run has an outcome whenever the index holds no null entry: the gather and the
probing loop then dereference no null pointer. -/
theorem getCompatibleSurfacesRun_isSome (env : Env) (layer : Layer) (q : Query)
    (hidx : ∀ sa, layer.m_surfaceArray = some sa → ∃ ss : List Surface,
      sa.arrayObjects = ss.map some) :
    ∃ r : Run, getCompatibleSurfacesRun env layer q = some r := by
  have hgather : ∀ sa, layer.m_surfaceArray = some sa → ∀ cps : Bool,
      ∃ ss : List Surface, gatherTestSurfaces env q cps sa = some (ss.map some) := by
    intro sa hsa cps
    obtain ⟨ss, hss⟩ := hidx sa hsa
    unfold gatherTestSurfaces
    by_cases hm : q.searchType ≤ 0
    · rw [if_pos hm, hss, exhaustiveLoop_map_some, List.nil_append]
      exact ⟨_, rfl⟩
    · rw [if_neg hm, localTestSurfaces_eq]
      exact ⟨_, rfl⟩
  have hsens : ∀ (m : Option Int) (c : Collector),
      ∃ c', sensitiveSection env layer q m c = some c' := by
    intro m c
    simp only [sensitiveSection]
    cases hsa : layer.m_surfaceArray with
    | none => exact ⟨c, rfl⟩
    | some sa =>
      simp only
      split
      · obtain ⟨ss, hss⟩ := hgather sa hsa (q.collectPassive || q.collectSensitive)
        rw [hss]
        simp only [testAll_map_some]
        exact ⟨_, rfl⟩
      · exact ⟨c, rfl⟩
  have hcollect : ∀ m : Option Int, ∃ c, collect env layer q m = some c := by
    intro m
    unfold collect
    obtain ⟨c', hc'⟩ := hsens m (approachSection env layer q m ⟨[], []⟩)
    rw [hc']
    exact ⟨_, rfl⟩
  have hfinish : ∀ (ep : Option EstimatorCall) (m : Option Int),
      ∃ r, finish ep (collect env layer q m) = some r := by
    intro ep m
    obtain ⟨c, hc⟩ := hcollect m
    rw [hc]
    exact ⟨_, rfl⟩
  unfold getCompatibleSurfacesRun
  split
  · exact ⟨_, rfl⟩
  · cases q.endSurface with
    | none => exact hfinish none none
    | some e =>
      simp only
      split
      · exact hfinish _ _
      · exact ⟨_, rfl⟩

theorem sensitiveSection_eq (env : Env) (layer : Layer) (q : Query) (m : Option Int)
    (c : Collector) :
    sensitiveSection env layer q m c
      = match sensitiveTestSurfaces env layer q with
        | none => none
        | some l => testAll env q m l c := by
  simp only [sensitiveSection, sensitiveTestSurfaces]
  cases layer.m_surfaceArray with
  | none => simp [testAll]
  | some sa =>
    simp only
    split
    · rfl
    · simp [testAll]

theorem representingCandidates_eq (env : Env) (layer : Layer) (q : Query) :
    representingCandidates env layer q
      = if representingTested env layer q then [layer.surfaceRepresentation] else [] := by
  unfold representingCandidates
  by_cases h : representingTested env layer q
  · have h2 : q.pars.referenceSurface ≠ layer.surfaceRepresentation
        ∧ ¬ vetoed q (some layer.surfaceRepresentation)
        ∧ (q.collectPassive = true
            ∨ (q.collectMaterial = true
                ∧ env.associatedMaterial layer.surfaceRepresentation = true)) :=
      ⟨h.1, fun hv => hv.elim h.2.1 h.2.2.1, h.2.2.2⟩
    rw [if_pos h, if_pos h2]
  · have h2 : ¬ (q.pars.referenceSurface ≠ layer.surfaceRepresentation
        ∧ ¬ vetoed q (some layer.surfaceRepresentation)
        ∧ (q.collectPassive = true
            ∨ (q.collectMaterial = true
                ∧ env.associatedMaterial layer.surfaceRepresentation = true))) :=
      fun h2 => h ⟨h2.1, fun hs => h2.2.1 (Or.inl hs), fun he => h2.2.1 (Or.inr he), h2.2.2⟩
    rw [if_neg h, if_neg h2]

/-- Sections (A) to (C) succeed exactly when the gathered pointers are all non-null, and
then probe the approach candidates, the gathered surfaces and the representing
candidate, in this order. -/
theorem collect_eq_some_iff (env : Env) (layer : Layer) (q : Query) (m : Option Int)
    (c : Collector) :
    collect env layer q m = some c ↔
      ∃ ss : List Surface, sensitiveTestSurfaces env layer q = some (ss.map some) ∧
        c = probeAll env q m ⟨[], []⟩
          (approachCandidates env layer q ++ ss ++ representingCandidates env layer q) := by
  unfold collect
  rw [approachSection_eq, sensitiveSection_eq]
  constructor
  · intro h
    cases hl : sensitiveTestSurfaces env layer q with
    | none => rw [hl] at h; exact absurd h (by simp)
    | some l =>
      rw [hl] at h
      simp only at h
      cases ht : testAll env q m l (probeAll env q m ⟨[], []⟩ (approachCandidates env layer q)) with
      | none => rw [ht] at h; exact absurd h (by simp)
      | some c1 =>
        rw [ht] at h
        simp only [Option.some.injEq] at h
        obtain ⟨ss, hss, hc1⟩ := testAll_eq_some env q m l _ c1 ht
        refine ⟨ss, by rw [hss], ?_⟩
        rw [← h, representingSection_eq, hc1, probeAll_append, probeAll_append,
          List.append_assoc]
  · rintro ⟨ss, hss, hc⟩
    rw [hss]
    simp only [testAll_map_some]
    rw [hc, representingSection_eq, probeAll_append, probeAll_append, List.append_assoc]

/-- A run that reaches the three sections returns exactly when the gathered pointers are
all non-null; its record and its result are then those of the candidates in
order. -/
theorem run_eq_some_iff (env : Env) (layer : Layer) (q : Query) (r : Run)
    (hreach : reachesSections env layer q) :
    getCompatibleSurfacesRun env layer q = some r ↔
      ∃ ss : List Surface, sensitiveTestSurfaces env layer q = some (ss.map some) ∧
        r = ⟨q.endSurface.map (endCall env q),
          (approachCandidates env layer q ++ ss ++ representingCandidates env layer q).map
            (probeCall q),
          ((approachCandidates env layer q ++ ss ++ representingCandidates env layer q).filterMap
            (accept env q (ceiling env q))).insertionSort SurfaceIntersection.le⟩ := by
  obtain ⟨hs, ha, hend⟩ := hreach
  have hfast : ¬ (layer.m_surfaceArray.isNone = true ∨ layer.m_approachDescriptor.isNone = true) := by
    rintro (h1 | h1)
    · rw [Option.isNone_iff_eq_none] at h1; rw [h1] at hs; exact absurd hs (by simp)
    · rw [Option.isNone_iff_eq_none] at h1; rw [h1] at ha; exact absurd ha (by simp)
  have hfin : ∀ (ep : Option EstimatorCall) (m : Option Int),
      finish ep (collect env layer q m) = some r ↔
        ∃ ss : List Surface, sensitiveTestSurfaces env layer q = some (ss.map some) ∧
          r = ⟨ep,
            (approachCandidates env layer q ++ ss ++ representingCandidates env layer q).map
              (probeCall q),
            ((approachCandidates env layer q ++ ss
                ++ representingCandidates env layer q).filterMap
              (accept env q m)).insertionSort SurfaceIntersection.le⟩ := by
    intro ep m
    constructor
    · intro h
      cases hc : collect env layer q m with
      | none => rw [hc] at h; exact absurd h (by simp [finish])
      | some c =>
        rw [hc] at h
        simp only [finish, Option.some.injEq] at h
        obtain ⟨ss, hss, hcc⟩ := (collect_eq_some_iff env layer q m c).mp hc
        refine ⟨ss, hss, ?_⟩
        rw [← h, hcc]
        simp [probeAll]
    · rintro ⟨ss, hss, hr⟩
      have hc := (collect_eq_some_iff env layer q m _).mpr ⟨ss, hss, rfl⟩
      rw [hc, hr]
      simp [finish, probeAll]
  unfold getCompatibleSurfacesRun
  rw [if_neg hfast]
  cases he : q.endSurface with
  | none =>
    simp only [Option.map_none']
    have := hfin none none
    simpa [ceiling, he] using this
  | some e =>
    simp only [Option.map_some']
    rw [if_pos (hend e he)]
    have := hfin (some (endCall env q e)) (some (endInter env q e).pathLength)
    simpa [ceiling, he] using this

/-- A run that does not reach the three sections returns the empty vector and probes no
candidate. -/
theorem run_of_not_reaches (env : Env) (layer : Layer) (q : Query)
    (hreach : ¬ reachesSections env layer q) :
    ∃ ep : Option EstimatorCall, getCompatibleSurfacesRun env layer q = some ⟨ep, [], []⟩ := by
  unfold getCompatibleSurfacesRun
  split
  · exact ⟨_, rfl⟩
  · rename_i hfast
    cases he : q.endSurface with
    | none =>
      exfalso
      apply hreach
      refine ⟨?_, ?_, ?_⟩
      · cases hsa : layer.m_surfaceArray with
        | none => exact absurd (Or.inl (by rw [hsa]; rfl)) hfast
        | some _ => rfl
      · cases had : layer.m_approachDescriptor with
        | none => exact absurd (Or.inr (by rw [had]; rfl)) hfast
        | some _ => rfl
      · intro e h; rw [he] at h; exact absurd h (by simp)
    | some e =>
      simp only
      split
      · rename_i hok
        exfalso
        apply hreach
        refine ⟨?_, ?_, ?_⟩
        · cases hsa : layer.m_surfaceArray with
          | none => exact absurd (Or.inl (by rw [hsa]; rfl)) hfast
          | some _ => rfl
        · cases had : layer.m_approachDescriptor with
          | none => exact absurd (Or.inr (by rw [had]; rfl)) hfast
          | some _ => rfl
        · intro e' h
          rw [he, Option.some.injEq] at h
          rw [← h]; exact hok
      · exact ⟨_, rfl⟩

theorem test_passive (env : Env) (q : Query) (m : Option Int) (c : Collector) (s : Surface) :
    test env q m c s = test env.noMaterial q.passiveOnly m c s := rfl

theorem approachStep_passive (env : Env) (q : Query) (m : Option Int)
    (hp : q.collectPassive = true) (c : Collector) (a : Surface) :
    approachStep env q m c a = approachStep env.noMaterial q.passiveOnly m c a := by
  have hp2 : q.passiveOnly.collectPassive = true := hp
  simp only [approachStep]
  rw [if_pos (Or.inl hp), if_pos (Or.inl hp2)]
  rfl

theorem approachSection_passive (env : Env) (layer : Layer) (q : Query) (m : Option Int)
    (hp : q.collectPassive = true) (c : Collector) :
    approachSection env layer q m c
      = approachSection env.noMaterial layer.noCounts q.passiveOnly m c := by
  have hp2 : q.passiveOnly.collectPassive = true := hp
  have hfun : approachStep env q m = approachStep env.noMaterial q.passiveOnly m := by
    funext c a
    exact approachStep_passive env q m hp c a
  unfold approachSection
  show (match layer.m_approachDescriptor with
      | none => c
      | some ad =>
        if q.collectPassive = true ∨ (q.collectMaterial = true ∧ layer.m_ssApproachSurfaces > 1)
        then ad.containedSurfaces.foldl (approachStep env q m) c else c)
    = (match layer.m_approachDescriptor with
      | none => c
      | some ad =>
        if q.passiveOnly.collectPassive = true
            ∨ (q.passiveOnly.collectMaterial = true ∧ layer.noCounts.m_ssApproachSurfaces > 1)
        then ad.containedSurfaces.foldl (approachStep env.noMaterial q.passiveOnly m) c else c)
  cases layer.m_approachDescriptor with
  | none => rfl
  | some ad =>
    simp only
    rw [if_pos (Or.inl hp), if_pos (Or.inl hp2), hfun]

theorem binmemberStep_passive (env : Env) (q : Query) (cps : Bool) (hc : cps = true)
    (acc : List (Option Surface)) (b : DetectorElementBase) :
    binmemberStep env q cps acc b = binmemberStep env.noMaterial q.passiveOnly cps acc b := by
  simp only [binmemberStep]
  rw [if_pos (Or.inl hc), if_pos (Or.inl hc)]
  rfl

theorem exhaustiveStep_passive (env : Env) (q : Query)
    (acc : List (Option Surface)) (a : Option Surface) :
    exhaustiveStep env q true acc a = exhaustiveStep env.noMaterial q.passiveOnly true acc a := by
  have hfun : binmemberStep env q true = binmemberStep env.noMaterial q.passiveOnly true := by
    funext acc b
    exact binmemberStep_passive env q true rfl acc b
  simp only [exhaustiveStep, hfun]
  rfl

theorem exhaustiveLoop_passive (env : Env) (q : Query) (objs : List (Option Surface)) :
    ∀ acc : List (Option Surface),
      exhaustiveLoop env q true objs acc
        = exhaustiveLoop env.noMaterial q.passiveOnly true objs acc := by
  induction objs with
  | nil => intro acc; rfl
  | cons a rest ih =>
    intro acc
    simp only [exhaustiveLoop]
    rw [exhaustiveStep_passive]
    cases exhaustiveStep env.noMaterial q.passiveOnly true acc a with
    | none => rfl
    | some next => exact ih next

theorem localStep_passive (env : Env) (q : Query) (cps : Bool) (hc : cps = true)
    (acc : List (Option Surface)) (ade : DetectorElementBase) :
    localStep env q cps acc ade = localStep env.noMaterial q.passiveOnly cps acc ade := by
  have hfun : binmemberStep env q cps = binmemberStep env.noMaterial q.passiveOnly cps := by
    funext acc b
    exact binmemberStep_passive env q cps hc acc b
  simp only [localStep, hfun]
  rw [if_pos (Or.inl hc), if_pos (Or.inl hc)]
  rfl

theorem gatherTestSurfaces_passive (env : Env) (q : Query) (sa : SurfaceArray) :
    gatherTestSurfaces env q true sa = gatherTestSurfaces env.noMaterial q.passiveOnly true sa := by
  have hfun : localStep env q true = localStep env.noMaterial q.passiveOnly true := by
    funext acc ade
    exact localStep_passive env q true rfl acc ade
  unfold gatherTestSurfaces localTestSurfaces
  rw [exhaustiveLoop_passive, hfun]
  rfl

theorem testAll_passive (env : Env) (q : Query) (m : Option Int) (l : List (Option Surface)) :
    ∀ c : Collector, testAll env q m l c = testAll env.noMaterial q.passiveOnly m l c := by
  induction l with
  | nil => intro c; rfl
  | cons t rest ih =>
    intro c
    cases t with
    | none => rfl
    | some s =>
      simp only [testAll]
      rw [ih, test_passive]

theorem sensitiveSection_passive (env : Env) (layer : Layer) (q : Query) (m : Option Int)
    (hp : q.collectPassive = true) (c : Collector) :
    sensitiveSection env layer q m c
      = sensitiveSection env.noMaterial layer.noCounts q.passiveOnly m c := by
  have hps : (q.collectPassive || q.collectSensitive) = true := by rw [hp]; rfl
  have hps2 : (q.passiveOnly.collectPassive || q.passiveOnly.collectSensitive) = true := by
    show (q.collectPassive || false) = true
    rw [hp]; rfl
  simp only [sensitiveSection]
  show (match layer.m_surfaceArray with
      | none => some c
      | some sa =>
        if (q.collectPassive || q.collectSensitive) = true
            ∨ (q.collectMaterial = true ∧ layer.m_ssSensitiveSurfaces > 1) then
          match gatherTestSurfaces env q (q.collectPassive || q.collectSensitive) sa with
          | none => none
          | some ctestSurfaces => testAll env q m ctestSurfaces c
        else some c)
    = (match layer.m_surfaceArray with
      | none => some c
      | some sa =>
        if (q.passiveOnly.collectPassive || q.passiveOnly.collectSensitive) = true
            ∨ (q.passiveOnly.collectMaterial = true
                ∧ layer.noCounts.m_ssSensitiveSurfaces > 1) then
          match gatherTestSurfaces env.noMaterial q.passiveOnly
              (q.passiveOnly.collectPassive || q.passiveOnly.collectSensitive) sa with
          | none => none
          | some ctestSurfaces => testAll env.noMaterial q.passiveOnly m ctestSurfaces c
        else some c)
  cases layer.m_surfaceArray with
  | none => rfl
  | some sa =>
    simp only
    rw [if_pos (Or.inl hps), if_pos (Or.inl hps2), hps, hps2, gatherTestSurfaces_passive]
    cases gatherTestSurfaces env.noMaterial q.passiveOnly true sa with
    | none => rfl
    | some l => exact testAll_passive env q m l c

theorem representingSection_passive (env : Env) (layer : Layer) (q : Query) (m : Option Int)
    (hp : q.collectPassive = true) (c : Collector) :
    representingSection env layer q m c
      = representingSection env.noMaterial layer.noCounts q.passiveOnly m c := by
  have hp2 : q.passiveOnly.collectPassive = true := hp
  simp only [representingSection]
  by_cases h : q.pars.referenceSurface ≠ layer.surfaceRepresentation
      ∧ some layer.surfaceRepresentation ≠ q.startSurface
      ∧ some layer.surfaceRepresentation ≠ q.endSurface
  · rw [if_pos ⟨h.1, h.2.1, h.2.2, Or.inl hp⟩, if_pos ⟨h.1, h.2.1, h.2.2, Or.inl hp2⟩]
    rfl
  · rw [if_neg (fun hc => h ⟨hc.1, hc.2.1, hc.2.2.1⟩),
      if_neg (fun hc => h ⟨hc.1, hc.2.1, hc.2.2.1⟩)]

theorem collect_passive (env : Env) (layer : Layer) (q : Query) (m : Option Int)
    (hp : q.collectPassive = true) :
    collect env layer q m = collect env.noMaterial layer.noCounts q.passiveOnly m := by
  unfold collect
  rw [approachSection_passive env layer q m hp, sensitiveSection_passive env layer q m hp]
  cases sensitiveSection env.noMaterial layer.noCounts q.passiveOnly m
      (approachSection env.noMaterial layer.noCounts q.passiveOnly m ⟨[], []⟩) with
  | none => rfl
  | some c => simp only [representingSection_passive env layer q m hp]

/-- With `collectPassive` set, a run equals the run with the material markers, the cached
counts and the two other switches cleared. -/
theorem run_passive (env : Env) (layer : Layer) (q : Query) (hp : q.collectPassive = true) :
    getCompatibleSurfacesRun env layer q
      = getCompatibleSurfacesRun env.noMaterial layer.noCounts q.passiveOnly := by
  unfold getCompatibleSurfacesRun
  show (if layer.m_surfaceArray.isNone = true ∨ layer.m_approachDescriptor.isNone = true then
      some ⟨none, [], []⟩
    else
      match q.endSurface with
      | none => finish none (collect env layer q none)
      | some e =>
        if (endInter env q e).valid = true ∧ (endInter env q e).pathLength > 0 then
          finish (some (endCall env q e))
            (collect env layer q (some (endInter env q e).pathLength))
        else some ⟨some (endCall env q e), [], []⟩)
    = (if layer.m_surfaceArray.isNone = true ∨ layer.m_approachDescriptor.isNone = true then
      some ⟨none, [], []⟩
    else
      match q.endSurface with
      | none => finish none (collect env.noMaterial layer.noCounts q.passiveOnly none)
      | some e =>
        if (endInter env q e).valid = true ∧ (endInter env q e).pathLength > 0 then
          finish (some (endCall env q e))
            (collect env.noMaterial layer.noCounts q.passiveOnly
              (some (endInter env q e).pathLength))
        else some ⟨some (endCall env q e), [], []⟩)
  simp only [collect_passive env layer q _ hp]

/-! ## The claims -/

/-- C1: the vector returned by `getCompatibleSurfaces` is in ascending order of path
length, each element's path length being at most that of its successor. -/
theorem getCompatibleSurfaces_sorted (env : Env) (layer : Layer) (q : Query)
    (r : List SurfaceIntersection) (h : getCompatibleSurfaces env layer q = some r)
    (i : Nat) (hi : i + 1 < r.length) :
    r[i].intersection.pathLength ≤ r[i + 1].intersection.pathLength := by
  unfold getCompatibleSurfaces at h
  cases hrun : getCompatibleSurfacesRun env layer q with
  | none => rw [hrun] at h; exact absurd h (by simp)
  | some run =>
    rw [hrun, Option.map_some', Option.some.injEq] at h
    obtain ⟨cands, _, _, hres⟩ := run_shape env layer q run hrun
    have hsorted : List.Sorted SurfaceIntersection.le r := by
      rw [← h, hres]
      exact List.sorted_insertionSort SurfaceIntersection.le _
    exact (List.pairwise_iff_getElem.mp hsorted) i (i + 1) (by omega) hi (by omega)

/-- Witness of C1 on the sample layer: the first two returned hits, of path lengths 5 and 10. -/
theorem getCompatibleSurfaces_sorted_witness :
    getCompatibleSurfaces sampleEnv sampleLayer sampleQuery = some sampleResult
      ∧ sampleResult[0].intersection.pathLength ≤ sampleResult[0 + 1].intersection.pathLength :=
  ⟨by decide,
   getCompatibleSurfaces_sorted sampleEnv sampleLayer sampleQuery sampleResult (by decide) 0
     (by decide)⟩

/-- C2: every returned element has a valid estimator result, and when an end surface is
supplied its path length is strictly below the path length of the end-surface
intersection (without an end surface the ceiling is infinite). -/
theorem getCompatibleSurfaces_valid_below_ceiling (env : Env) (layer : Layer) (q : Query)
    (r : List SurfaceIntersection) (h : getCompatibleSurfaces env layer q = some r)
    (x : SurfaceIntersection) (hx : x ∈ r) :
    x.intersection.valid = true
      ∧ ∀ e : Surface, q.endSurface = some e →
          x.intersection.pathLength < (endInter env q e).pathLength := by
  obtain ⟨_, hvalid, hbelow⟩ := mem_result env layer q r h x hx
  refine ⟨hvalid, ?_⟩
  intro e he
  simp only [ceiling, he, Option.map_some', belowMax] at hbelow
  exact of_decide_eq_true hbelow

/-- Witness of C2: the hit on surface 20, of path length 25, under the ceiling 40 of end
surface 30. -/
theorem getCompatibleSurfaces_valid_below_ceiling_witness :
    getCompatibleSurfaces sampleEnv sampleLayer sampleQuery = some sampleResult
      ∧ sampleHit 20 25 ∈ sampleResult
      ∧ sampleQuery.endSurface = some 30
      ∧ (sampleHit 20 25).intersection.valid = true
      ∧ (sampleHit 20 25).intersection.pathLength
          < (endInter sampleEnv sampleQuery 30).pathLength :=
  ⟨by decide, by decide, rfl,
   (getCompatibleSurfaces_valid_below_ceiling sampleEnv sampleLayer sampleQuery sampleResult
      (by decide) (sampleHit 20 25) (by decide)).1,
   (getCompatibleSurfaces_valid_below_ceiling sampleEnv sampleLayer sampleQuery sampleResult
      (by decide) (sampleHit 20 25) (by decide)).2 30 rfl⟩

/-- C3: no returned element references the start surface or the end surface. -/
theorem getCompatibleSurfaces_excludes_start_end (env : Env) (layer : Layer) (q : Query)
    (r : List SurfaceIntersection) (h : getCompatibleSurfaces env layer q = some r)
    (x : SurfaceIntersection) (hx : x ∈ r) :
    some x.object ≠ q.startSurface ∧ some x.object ≠ q.endSurface := by
  obtain ⟨hv, _, _⟩ := mem_result env layer q r h x hx
  exact ⟨fun hs => hv (Or.inl hs), fun he => hv (Or.inr he)⟩

/-- Witness of C3: indexed surface 1 as start surface and approach surface 11 as end surface. -/
theorem getCompatibleSurfaces_excludes_start_end_witness :
    getCompatibleSurfaces sampleEnv sampleLayer
        { sampleQuery with startSurface := some 1, endSurface := some 11 }
        = some [sampleHit 10 5, sampleHit 2 20, sampleHit 20 25]
      ∧ sampleHit 2 20 ∈ [sampleHit 10 5, sampleHit 2 20, sampleHit 20 25]
      ∧ some (sampleHit 2 20).object ≠ some 1 ∧ some (sampleHit 2 20).object ≠ some 11 :=
  ⟨by decide, by decide,
   getCompatibleSurfaces_excludes_start_end sampleEnv sampleLayer
     { sampleQuery with startSurface := some 1, endSurface := some 11 }
     [sampleHit 10 5, sampleHit 2 20, sampleHit 20 25] (by decide) (sampleHit 2 20) (by decide)⟩

/-- C4: when an end surface is supplied and its intersection is invalid or has a path
length that is not strictly positive, the returned vector is empty. -/
theorem getCompatibleSurfaces_unreachable_end (env : Env) (layer : Layer) (q : Query)
    (e : Surface) (he : q.endSurface = some e)
    (hbad : (endInter env q e).valid = false ∨ (endInter env q e).pathLength ≤ 0) :
    getCompatibleSurfaces env layer q = some [] := by
  unfold getCompatibleSurfaces getCompatibleSurfacesRun
  split
  · rfl
  · rw [he]
    have hnot : ¬ ((endInter env q e).valid = true ∧ (endInter env q e).pathLength > 0) := by
      rintro ⟨hv, hp⟩
      rcases hbad with hb | hb
      · rw [hb] at hv; exact absurd hv (by simp)
      · omega
    simp only [if_neg hnot]
    rfl

/-- Witness of C4: end surface 31 is hit validly at path length 0, and the query that
finds hits with end surface 30 returns nothing. -/
theorem getCompatibleSurfaces_unreachable_end_witness :
    ({ sampleQuery with pDir := PropDirection.anyDirection, endSurface := some 31 } : Query).endSurface
        = some 31
      ∧ ((endInter sampleEnv
            { sampleQuery with pDir := PropDirection.anyDirection, endSurface := some 31 } 31).valid
            = false
          ∨ (endInter sampleEnv
            { sampleQuery with pDir := PropDirection.anyDirection, endSurface := some 31 }
            31).pathLength ≤ 0)
      ∧ getCompatibleSurfaces sampleEnv sampleLayer
          { sampleQuery with pDir := PropDirection.anyDirection, endSurface := some 31 } = some [] :=
  ⟨rfl, Or.inr (by decide),
   getCompatibleSurfaces_unreachable_end sampleEnv sampleLayer
     { sampleQuery with pDir := PropDirection.anyDirection, endSurface := some 31 } 31 rfl
     (Or.inr (by decide))⟩

/-- C5: a layer with neither a surface array nor an approach descriptor returns the empty
vector for every query. -/
theorem getCompatibleSurfaces_bare_layer (env : Env) (layer : Layer) (q : Query)
    (hs : layer.m_surfaceArray = none) (ha : layer.m_approachDescriptor = none) :
    getCompatibleSurfaces env layer q = some [] := by
  unfold getCompatibleSurfaces getCompatibleSurfacesRun
  rw [hs, ha]
  rfl

/-- Witness of C5: the bare sample layer, whose representing surface 20 the passive query
would accept. -/
theorem getCompatibleSurfaces_bare_layer_witness :
    sampleLayerBare.m_surfaceArray = none ∧ sampleLayerBare.m_approachDescriptor = none
      ∧ accept sampleEnv samplePassiveQuery none 20 = some (sampleHit 20 25)
      ∧ getCompatibleSurfaces sampleEnv sampleLayerBare samplePassiveQuery = some [] :=
  ⟨rfl, rfl, by decide,
   getCompatibleSurfaces_bare_layer sampleEnv sampleLayerBare samplePassiveQuery rfl rfl⟩

/-- C6, the code at the failing input: with `collectPassive` set, no start or end surface,
track parameters off the representing surface 20 and a valid estimator hit on it,
the layer with an index but no approach descriptor, and the layer with an
approach descriptor but no index, both return the empty vector; no estimator
call is made. -/
theorem getCompatibleSurfaces_one_absent_returns_empty :
    samplePassiveQuery.collectPassive = true
      ∧ samplePassiveQuery.startSurface = none ∧ samplePassiveQuery.endSurface = none
      ∧ samplePassiveQuery.pars.referenceSurface ≠ sampleLayer.surfaceRepresentation
      ∧ (sampleEnv.estimate (probeCall samplePassiveQuery 20)).valid = true
      ∧ sampleLayerIndexOnly.m_surfaceArray.isSome = true
      ∧ sampleLayerApproachOnly.m_approachDescriptor.isSome = true
      ∧ getCompatibleSurfacesRun sampleEnv sampleLayerIndexOnly samplePassiveQuery
          = some ⟨none, [], []⟩
      ∧ getCompatibleSurfacesRun sampleEnv sampleLayerApproachOnly samplePassiveQuery
          = some ⟨none, [], []⟩ := by
  decide

/-- C7 as stated fails: on the sample layer the end-surface call of a query along the
momentum, and of one opposite to it, forces the direction, while the call of a
query in any direction does not. -/
theorem endProbe_forceDir_counterexample :
    ((getCompatibleSurfacesRun sampleEnv sampleLayer sampleQuery).bind Run.endProbe).map
        EstimatorCall.forceDir = some true
      ∧ ((getCompatibleSurfacesRun sampleEnv sampleLayer
            { sampleQuery with pDir := PropDirection.oppositeMomentum }).bind Run.endProbe).map
          EstimatorCall.forceDir = some true
      ∧ ((getCompatibleSurfacesRun sampleEnv sampleLayer
            { sampleQuery with pDir := PropDirection.anyDirection }).bind Run.endProbe).map
          EstimatorCall.forceDir = some false := by
  decide

/-- C7 amended: for a layer that passes the fast exit and a query with end surface `e`,
the end surface is probed at the track position along `dir`, in relaxed
containment mode, with `forceDir` true exactly when the enumerator value of
`pDir` is non-zero. -/
theorem getCompatibleSurfacesRun_endProbe (env : Env) (layer : Layer) (q : Query) (e : Surface)
    (r : Run) (hs : layer.m_surfaceArray.isSome = true)
    (ha : layer.m_approachDescriptor.isSome = true) (he : q.endSurface = some e)
    (h : getCompatibleSurfacesRun env layer q = some r) :
    r.endProbe = some ⟨e, q.pars.position, dir q, decide (env.propDirectionValue q.pDir ≠ 0),
      BoundaryCheck.ofBool false⟩ := by
  unfold getCompatibleSurfacesRun at h
  have hfast : ¬ (layer.m_surfaceArray.isNone = true ∨ layer.m_approachDescriptor.isNone = true) := by
    rintro (h1 | h1)
    · rw [Option.isNone_iff_eq_none] at h1; rw [h1] at hs; exact absurd hs (by simp)
    · rw [Option.isNone_iff_eq_none] at h1; rw [h1] at ha; exact absurd ha (by simp)
  rw [if_neg hfast, he] at h
  simp only at h
  split at h
  · cases hc : collect env layer q (some (endInter env q e).pathLength) with
    | none => rw [hc] at h; exact absurd h (by simp [finish])
    | some c =>
      rw [hc] at h
      simp only [finish, Option.some.injEq] at h
      rw [← h]; rfl
  · rw [Option.some.injEq] at h
    rw [← h]; rfl

/-- Witness of C7 amended: the sample query along the momentum, enumerator value 1. -/
theorem getCompatibleSurfacesRun_endProbe_witness :
    sampleLayer.m_surfaceArray.isSome = true ∧ sampleLayer.m_approachDescriptor.isSome = true
      ∧ sampleQuery.endSurface = some 30
      ∧ getCompatibleSurfacesRun sampleEnv sampleLayer sampleQuery
          = some ⟨some ⟨30, ⟨0, 0, 0⟩, ⟨0, 0, 1⟩, true, ⟨false, 0⟩⟩,
              [10, 11, 4, 5, 1, 2, 3, 20].map (probeCall sampleQuery), sampleResult⟩
      ∧ (Run.mk (some ⟨30, ⟨0, 0, 0⟩, ⟨0, 0, 1⟩, true, ⟨false, 0⟩⟩)
            ([10, 11, 4, 5, 1, 2, 3, 20].map (probeCall sampleQuery)) sampleResult).endProbe
          = some ⟨30, sampleQuery.pars.position, dir sampleQuery,
              decide (sampleEnv.propDirectionValue sampleQuery.pDir ≠ 0),
              BoundaryCheck.ofBool false⟩ :=
  ⟨rfl, rfl, rfl, by decide,
   getCompatibleSurfacesRun_endProbe sampleEnv sampleLayer sampleQuery 30 _ rfl rfl rfl
     (by decide)⟩

/-- C8: every call made by `testCompatibleSurface` passes relaxed containment when
`searchType` is odd and the caller's containment mode when it is even. -/
theorem getCompatibleSurfacesRun_probe_bcheck (env : Env) (layer : Layer) (q : Query) (r : Run)
    (h : getCompatibleSurfacesRun env layer q = some r) (c : EstimatorCall)
    (hc : c ∈ r.probes) :
    (Odd q.searchType → c.bcheck = BoundaryCheck.ofBool false)
      ∧ (Even q.searchType → c.bcheck = q.bcheck) := by
  obtain ⟨cands, _, hprobes, _⟩ := run_shape env layer q r h
  rw [hprobes, List.mem_map] at hc
  obtain ⟨s, _, hs⟩ := hc
  have hb : c.bcheck = tCheck q := by rw [← hs]; rfl
  exact ⟨fun ho => hb.trans (tCheck_of_odd q ho), fun hev => hb.trans (tCheck_of_even q hev)⟩

/-- Witness of C8: search type -1, the probe of indexed surface 3 under a caller mode that
checks the bounds. -/
theorem getCompatibleSurfacesRun_probe_bcheck_witness :
    (getCompatibleSurfacesRun sampleEnv sampleLayer sampleOddQuery).map Run.probes
        = some ([10, 11, 4, 5, 1, 2, 3, 20].map
            (fun s => ⟨s, ⟨0, 0, 0⟩, ⟨0, 0, 1⟩, false, ⟨false, 0⟩⟩))
      ∧ Odd sampleOddQuery.searchType
      ∧ sampleOddQuery.bcheck = ⟨true, 3⟩
      ∧ (probeCall sampleOddQuery 3).bcheck = BoundaryCheck.ofBool false :=
  ⟨by decide, ⟨-1, by decide⟩, rfl,
   (getCompatibleSurfacesRun_probe_bcheck sampleEnv sampleLayer sampleOddQuery
      ⟨some ⟨30, ⟨0, 0, 0⟩, ⟨0, 0, 1⟩, false, ⟨false, 0⟩⟩,
        [10, 11, 4, 5, 1, 2, 3, 20].map (probeCall sampleOddQuery),
        [⟨⟨⟨0, 0, 0⟩, -5, true⟩, 5, PropDirection.oppositeMomentum⟩, sampleHit 10 5,
          sampleHit 1 10, sampleHit 4 15, sampleHit 2 20, sampleHit 20 25, sampleHit 3 30]⟩
      (by decide) (probeCall sampleOddQuery 3) (by decide)).1 ⟨-1, by decide⟩⟩

/-- C9 as stated fails: with indexed surface 1, owner of bin members 4 and 5, as start
surface, the exhaustive gather yields surfaces 2 and 3 only, where the claim
announces 4, 5, 2, 3; the run probes neither 4 nor 5. -/
theorem gatherTestSurfaces_exhaustive_counterexample :
    sampleStartQuery.searchType ≤ 0
      ∧ gatherTestSurfaces sampleEnv sampleStartQuery true sampleArray = some [some 2, some 3]
      ∧ claimedExhaustive sampleEnv sampleStartQuery true [1, 2, 3] = [4, 5, 2, 3]
      ∧ (getCompatibleSurfacesRun sampleEnv sampleLayer sampleStartQuery).map
          (fun r => r.probes.map EstimatorCall.surface) = some [10, 11, 2, 3, 20] := by
  decide

/-- C9 amended: in exhaustive mode over an index of non-null surfaces, the gathered list
is, for every indexed surface in index order that is neither the start nor the
end surface, the surfaces of its detector element's bin members, each dropped
iff it is the start or end surface or fails the filter, followed by the indexed
surface itself, dropped iff it fails the filter; an indexed surface that is the
start or end surface contributes nothing. -/
theorem gatherTestSurfaces_exhaustive (env : Env) (q : Query) (collectPS : Bool)
    (sa : SurfaceArray) (ss : List Surface) (hmode : q.searchType ≤ 0)
    (hidx : sa.arrayObjects = ss.map some) :
    gatherTestSurfaces env q collectPS sa
      = some ((ss.flatMap (exhaustiveEntry env q collectPS)).map some) := by
  unfold gatherTestSurfaces
  rw [if_pos hmode, hidx, exhaustiveLoop_map_some, List.nil_append]

/-- Witness of C9 amended: the sample index with surface 1 as start surface gives the
two candidates 2 and 3. -/
theorem gatherTestSurfaces_exhaustive_witness :
    sampleStartQuery.searchType ≤ 0
      ∧ sampleArray.arrayObjects = [1, 2, 3].map some
      ∧ ([1, 2, 3].flatMap (exhaustiveEntry sampleEnv sampleStartQuery true)).map some
          = [some 2, some 3]
      ∧ gatherTestSurfaces sampleEnv sampleStartQuery true sampleArray
          = some (([1, 2, 3].flatMap (exhaustiveEntry sampleEnv sampleStartQuery true)).map some) :=
  ⟨by decide, rfl, by decide,
   gatherTestSurfaces_exhaustive sampleEnv sampleStartQuery true sampleArray [1, 2, 3]
     (by decide) rfl⟩

/-- C10 as stated fails: with neighbour surface 2, owner of bin member 6, as start
surface, the local gather yields surfaces 3 and 1 only, where the claim keeps
bin member 6 as a candidate. -/
theorem gatherTestSurfaces_local_counterexample :
    0 < sampleLocalStartQuery.searchType
      ∧ sampleArray.object sampleLocalStartQuery.pars.position = some 1
      ∧ sampleEnvLocal.associatedDetectorElement 1 = some 1
      ∧ sampleEnvLocal.neighbours 1 = [2, 3] ∧ sampleEnvLocal.binmembers 2 = [6]
      ∧ gatherTestSurfaces sampleEnvLocal sampleLocalStartQuery true sampleArray
          = some [some 3, some 1]
      ∧ claimedLocal sampleEnvLocal sampleLocalStartQuery true 1 = [6, 3, 1] := by
  decide

/-- C10 amended: in local mode, when the position resolves to a surface with detector
element `dElement`, the gathered list is, for every element of `neighbours()`
followed by `dElement` whose own surface is neither the start nor the end
surface, that surface, dropped iff it fails the filter, followed by the surfaces
of the element's bin members, each dropped iff it is the start or end surface or
fails the filter; an element whose own surface is the start or end surface
contributes nothing. -/
theorem gatherTestSurfaces_local (env : Env) (q : Query) (collectPS : Bool)
    (sa : SurfaceArray) (tSurface : Surface) (dElement : DetectorElementBase)
    (hmode : 0 < q.searchType) (hobj : sa.object q.pars.position = some tSurface)
    (hde : env.associatedDetectorElement tSurface = some dElement) :
    gatherTestSurfaces env q collectPS sa
      = some (((env.neighbours dElement ++ [dElement]).flatMap
          (localEntry env q collectPS)).map some) := by
  unfold gatherTestSurfaces
  rw [if_neg (by omega), localTestSurfaces_eq, hobj]
  unfold localCandidates
  rw [Option.some_bind, hde]

/-- Witness of C10 amended: without start surface the sample gives the four candidates
2, 6, 3, 1. -/
theorem gatherTestSurfaces_local_witness :
    0 < ({ samplePassiveQuery with searchType := 1 } : Query).searchType
      ∧ sampleArray.object ({ samplePassiveQuery with searchType := 1 } : Query).pars.position
          = some 1
      ∧ sampleEnvLocal.associatedDetectorElement 1 = some 1
      ∧ ((sampleEnvLocal.neighbours 1 ++ [1]).flatMap
            (localEntry sampleEnvLocal { samplePassiveQuery with searchType := 1 } true)).map some
          = [some 2, some 6, some 3, some 1]
      ∧ gatherTestSurfaces sampleEnvLocal { samplePassiveQuery with searchType := 1 } true
          sampleArray
          = some (((sampleEnvLocal.neighbours 1 ++ [1]).flatMap
              (localEntry sampleEnvLocal { samplePassiveQuery with searchType := 1 } true)).map
              some) :=
  ⟨by decide, rfl, rfl, by decide,
   gatherTestSurfaces_local sampleEnvLocal { samplePassiveQuery with searchType := 1 } true
     sampleArray 1 1 (by decide) rfl rfl⟩

/-- C13: `testCompatibleSurface` appends one element exactly when the estimator result is
valid and its path length is strictly below the ceiling, and leaves `cSurfaces`
unchanged otherwise, also at a path length equal to the ceiling; the appended
element carries the estimator result and the surface, tagged `alongMomentum`
exactly for a strictly positive path length and `oppositeMomentum` otherwise; the
one estimator call it makes has `forceDir` false exactly for `anyDirection`. -/
theorem testCompatibleSurface_spec (env : Env) (c : Collector) (surface : Surface)
    (pos dir : Vector3D) (pDir : PropDirection) (bcheck : BoundaryCheck)
    (maxPathLength : Option Int) :
    ((∃ x, (testCompatibleSurface env c surface pos dir pDir bcheck maxPathLength).cSurfaces
          = c.cSurfaces ++ [x])
        ↔ ((env.intersectionEstimate surface pos dir (fDirection pDir) bcheck).valid = true
            ∧ ∀ M : Int, maxPathLength = some M →
                (env.intersectionEstimate surface pos dir (fDirection pDir) bcheck).pathLength < M))
      ∧ (¬ ((env.intersectionEstimate surface pos dir (fDirection pDir) bcheck).valid = true
            ∧ ∀ M : Int, maxPathLength = some M →
                (env.intersectionEstimate surface pos dir (fDirection pDir) bcheck).pathLength < M)
          → (testCompatibleSurface env c surface pos dir pDir bcheck maxPathLength).cSurfaces
              = c.cSurfaces)
      ∧ (maxPathLength
            = some (env.intersectionEstimate surface pos dir (fDirection pDir) bcheck).pathLength
          → (testCompatibleSurface env c surface pos dir pDir bcheck maxPathLength).cSurfaces
              = c.cSurfaces)
      ∧ (∀ x, (testCompatibleSurface env c surface pos dir pDir bcheck maxPathLength).cSurfaces
            = c.cSurfaces ++ [x] →
          x.intersection = env.intersectionEstimate surface pos dir (fDirection pDir) bcheck
            ∧ x.object = surface
            ∧ (x.pDirection = PropDirection.alongMomentum ↔ 0 < x.intersection.pathLength)
            ∧ (x.pDirection = PropDirection.oppositeMomentum ↔ x.intersection.pathLength ≤ 0))
      ∧ (testCompatibleSurface env c surface pos dir pDir bcheck maxPathLength).probes
          = c.probes ++ [⟨surface, pos, dir, fDirection pDir, bcheck⟩]
      ∧ (fDirection pDir = false ↔ pDir = PropDirection.anyDirection) := by
  generalize hsf : env.intersectionEstimate surface pos dir (fDirection pDir) bcheck = sf
  have hbelow : belowMax sf.pathLength maxPathLength = true
      ↔ ∀ M : Int, maxPathLength = some M → sf.pathLength < M := by
    cases maxPathLength with
    | none => simp [belowMax]
    | some M0 => simp [belowMax]
  have hout : testCompatibleSurface env c surface pos dir pDir bcheck maxPathLength
      = if sf.valid = true ∧ belowMax sf.pathLength maxPathLength = true then
          ⟨c.cSurfaces ++ [⟨sf, surface, if sf.pathLength > 0 then PropDirection.alongMomentum
            else PropDirection.oppositeMomentum⟩],
            c.probes ++ [⟨surface, pos, dir, fDirection pDir, bcheck⟩]⟩
        else ⟨c.cSurfaces, c.probes ++ [⟨surface, pos, dir, fDirection pDir, bcheck⟩]⟩ := by
    simp only [testCompatibleSurface, hsf]
  have hdir : fDirection pDir = false ↔ pDir = PropDirection.anyDirection := by
    unfold fDirection
    by_cases hp : pDir = PropDirection.anyDirection
    · simp [hp]
    · simp [hp]
  by_cases hacc : sf.valid = true ∧ belowMax sf.pathLength maxPathLength = true
  · rw [hout, if_pos hacc]
    have hacc2 : sf.valid = true ∧ ∀ M : Int, maxPathLength = some M → sf.pathLength < M :=
      ⟨hacc.1, hbelow.mp hacc.2⟩
    refine ⟨⟨fun _ => hacc2, fun _ => ⟨_, rfl⟩⟩, fun hn => absurd hacc2 hn, ?_, ?_, rfl, hdir⟩
    · intro hM
      exact absurd (hacc2.2 _ hM) (lt_irrefl _)
    · intro x hx
      have hx2 := List.append_cancel_left hx
      rw [List.cons.injEq] at hx2
      rw [← hx2.1]
      refine ⟨rfl, rfl, ?_, ?_⟩
      · by_cases hpos : sf.pathLength > 0
        · simp [hpos]
        · simp [hpos]
      · by_cases hpos : sf.pathLength > 0
        · simp only [if_pos hpos]
          constructor
          · intro h; exact absurd h (by decide)
          · intro h; omega
        · simp only [if_neg hpos]
          constructor
          · intro _; omega
          · intro _; trivial
  · rw [hout, if_neg hacc]
    have hacc2 : ¬ (sf.valid = true ∧ ∀ M : Int, maxPathLength = some M → sf.pathLength < M) :=
      fun h => hacc ⟨h.1, hbelow.mpr h.2⟩
    have hne : ∀ x : SurfaceIntersection, c.cSurfaces ≠ c.cSurfaces ++ [x] := by
      intro x h
      have := congrArg List.length h
      simp at this
    refine ⟨⟨fun ⟨x, hx⟩ => absurd hx (hne x), fun h => absurd h hacc2⟩, fun _ => rfl,
      fun _ => rfl, ?_, rfl, hdir⟩
    intro x hx
    exact absurd hx (hne x)

/-- Witness of C13: surface 30 is hit validly at path length 40; under a ceiling of 40 the
collection stays empty. -/
theorem testCompatibleSurface_spec_witness :
    (sampleEnv.intersectionEstimate 30 ⟨0, 0, 0⟩ ⟨0, 0, 1⟩
        (fDirection PropDirection.alongMomentum) ⟨true, 3⟩) = ⟨⟨0, 0, 0⟩, 40, true⟩
      ∧ (testCompatibleSurface sampleEnv ⟨[], []⟩ 30 ⟨0, 0, 0⟩ ⟨0, 0, 1⟩
          PropDirection.alongMomentum ⟨true, 3⟩ (some 40)).cSurfaces = [] :=
  ⟨by decide,
   (testCompatibleSurface_spec sampleEnv ⟨[], []⟩ 30 ⟨0, 0, 0⟩ ⟨0, 0, 1⟩
      PropDirection.alongMomentum ⟨true, 3⟩ (some 40)).2.2.1 (by decide)⟩

/-- C17: nothing removes duplicates. In exhaustive mode with `collectPassive` set, two
indexed surfaces whose elements are bin members of each other are each gathered
twice, and the returned vector holds surface 1 twice and surface 2 twice. -/
theorem getCompatibleSurfaces_duplicates :
    ∃ (env : Env) (layer : Layer) (q : Query) (r : List SurfaceIntersection) (s : Surface),
      q.searchType ≤ 0 ∧ q.collectPassive = true
        ∧ getCompatibleSurfaces env layer q = some r
        ∧ 1 < (r.map SurfaceIntersection.object).count s :=
  ⟨sampleEnvMutual, sampleLayerMutual, samplePassiveQuery,
    [sampleHit 1 10, sampleHit 1 10, sampleHit 2 20, sampleHit 2 20, sampleHit 20 25], 1,
    by decide, rfl, by decide, by decide⟩

/-- C11 as stated fails: on the layer whose approach descriptor lists the representing
surface 20, the run probes surface 20 twice, once in section (A) and once in
section (C); and with the track parameters on surface 20 the condition of
section (C) is false, yet section (A) probes surface 20. -/
theorem representingSurface_probed_counterexample :
    reachesSections sampleEnv sampleLayerAliased sampleQuery
      ∧ representingTested sampleEnv sampleLayerAliased sampleQuery
      ∧ (getCompatibleSurfacesRun sampleEnv sampleLayerAliased sampleQuery).map
          (fun r => r.probes.map EstimatorCall.surface) = some [20, 4, 5, 1, 2, 3, 20]
      ∧ reachesSections sampleEnv sampleLayerAliased sampleOnLayerQuery
      ∧ ¬ representingTested sampleEnv sampleLayerAliased sampleOnLayerQuery
      ∧ (getCompatibleSurfacesRun sampleEnv sampleLayerAliased sampleOnLayerQuery).map
          (fun r => r.probes.map EstimatorCall.surface) = some [20, 4, 5, 1, 2, 3] := by
  decide

/-- C11 amended: in a run that passes the fast exit and the end-surface check, section (C)
adds, after the calls of sections (A) and (B), one call on the representing
surface exactly when that surface is not the reference surface of the track
parameters, not the start surface, not the end surface, and `collectPassive` or
(`collectMaterial` and the surface has material) holds, and no call otherwise;
so the whole run probes the surface as often as sections (A) and (B) did, plus
once exactly under that condition; when section (C) probes it and the hit is
accepted, the surface is in the result. -/
theorem representingSurface_probed_iff (env : Env) (layer : Layer) (q : Query) (r : Run)
    (hreach : reachesSections env layer q)
    (h : getCompatibleSurfacesRun env layer q = some r) :
    ∃ c : Collector,
      sensitiveSection env layer q (ceiling env q)
          (approachSection env layer q (ceiling env q) ⟨[], []⟩) = some c
        ∧ r.probes = c.probes
            ++ (if representingTested env layer q
                then [probeCall q layer.surfaceRepresentation] else [])
        ∧ (representingTested env layer q →
            ∀ x, accept env q (ceiling env q) layer.surfaceRepresentation = some x →
              x ∈ r.result)
        ∧ r.probes.count (probeCall q layer.surfaceRepresentation)
            = c.probes.count (probeCall q layer.surfaceRepresentation)
              + (if representingTested env layer q then 1 else 0) := by
  obtain ⟨ss, hss, hr⟩ := (run_eq_some_iff env layer q r hreach).mp h
  have hprobes : r.probes
      = (probeAll env q (ceiling env q) ⟨[], []⟩ (approachCandidates env layer q ++ ss)).probes
        ++ (if representingTested env layer q
            then [probeCall q layer.surfaceRepresentation] else []) := by
    rw [hr, representingCandidates_eq]
    by_cases ht : representingTested env layer q
    · simp [ht, probeAll]
    · simp [ht, probeAll]
  refine ⟨probeAll env q (ceiling env q) ⟨[], []⟩ (approachCandidates env layer q ++ ss),
    ?_, hprobes, ?_, ?_⟩
  · rw [approachSection_eq, sensitiveSection_eq, hss]
    simp only [testAll_map_some, probeAll_append]
  · intro ht x hx
    rw [hr, representingCandidates_eq, if_pos ht]
    simp only [List.mem_insertionSort, List.mem_filterMap]
    exact ⟨layer.surfaceRepresentation, by simp, hx⟩
  · rw [hprobes, List.count_append]
    by_cases ht : representingTested env layer q
    · rw [if_pos ht, if_pos ht]
      simp
    · rw [if_neg ht, if_neg ht]
      simp

/-- Witness of C11 amended: the sample run ends with the probe of representing surface 20, whose
hit at path length 25 is returned. -/
theorem representingSurface_probed_iff_witness :
    reachesSections sampleEnv sampleLayer sampleQuery
      ∧ getCompatibleSurfacesRun sampleEnv sampleLayer sampleQuery = some sampleRun
      ∧ representingTested sampleEnv sampleLayer sampleQuery
      ∧ accept sampleEnv sampleQuery (ceiling sampleEnv sampleQuery)
          sampleLayer.surfaceRepresentation = some (sampleHit 20 25)
      ∧ sampleHit 20 25 ∈ sampleRun.result :=
  ⟨by decide, by decide, by decide, by decide,
   (representingSurface_probed_iff sampleEnv sampleLayer sampleQuery sampleRun (by decide)
      (by decide)).elim
     (fun _ hc => hc.2.2.1 (by decide) (sampleHit 20 25) (by decide))⟩

/-- C12: in a run that passes the fast exit and the end-surface check, the calls recorded
are those of the approach pass followed by those sections (B) and (C) make on
their own. The approach pass runs exactly when `collectPassive` or
(`collectMaterial` and the cached approach count exceeds one) holds; it then
probes, in order, the approach surfaces that are neither the start nor the end
surface and satisfy `collectPassive` or carry material; when it does not run it
probes nothing. -/
theorem approachPass_probes (env : Env) (layer : Layer) (q : Query) (r : Run)
    (ad : ApproachDescriptor) (hreach : reachesSections env layer q)
    (had : layer.m_approachDescriptor = some ad)
    (h : getCompatibleSurfacesRun env layer q = some r) :
    ∃ c : Collector,
      sensitiveSection env layer q (ceiling env q) ⟨[], []⟩ = some c
        ∧ r.probes
            = (if q.collectPassive = true
                  ∨ (q.collectMaterial = true ∧ layer.m_ssApproachSurfaces > 1) then
                ad.containedSurfaces.filter (fun a =>
                  decide (some a ≠ q.startSurface ∧ some a ≠ q.endSurface
                    ∧ (q.collectPassive = true ∨ env.associatedMaterial a = true)))
              else []).map (probeCall q)
              ++ (representingSection env layer q (ceiling env q) c).probes := by
  obtain ⟨ss, hss, hr⟩ := (run_eq_some_iff env layer q r hreach).mp h
  refine ⟨probeAll env q (ceiling env q) ⟨[], []⟩ ss, ?_, ?_⟩
  · rw [sensitiveSection_eq, hss]
    simp only [testAll_map_some]
  · have happ : approachCandidates env layer q
        = (if q.collectPassive = true
              ∨ (q.collectMaterial = true ∧ layer.m_ssApproachSurfaces > 1) then
            ad.containedSurfaces.filter (fun a =>
              decide (some a ≠ q.startSurface ∧ some a ≠ q.endSurface
                ∧ (q.collectPassive = true ∨ env.associatedMaterial a = true)))
          else []) := by
      unfold approachCandidates
      rw [had]
      simp only
      split
      · apply List.filter_congr
        intro a _
        simp only [vetoed, wanted, not_or, and_assoc]
      · rfl
    rw [hr, representingSection_eq, ← happ]
    simp [probeAll]

/-- Witness of C12: for the material-only sample query the approach pass runs on a cached
count of two and probes approach surface 10, which carries material, but not
approach surface 11; the representing surface 20 follows. -/
theorem approachPass_probes_witness :
    reachesSections sampleEnv sampleLayer sampleMaterialQuery
      ∧ sampleLayer.m_approachDescriptor = some ⟨[10, 11]⟩
      ∧ getCompatibleSurfacesRun sampleEnv sampleLayer sampleMaterialQuery
          = some ⟨some ⟨30, ⟨0, 0, 0⟩, ⟨0, 0, 1⟩, true, ⟨false, 0⟩⟩,
              [probeCall sampleMaterialQuery 10, probeCall sampleMaterialQuery 20],
              [sampleHit 10 5, sampleHit 20 25]⟩
      ∧ (if sampleMaterialQuery.collectPassive = true
              ∨ (sampleMaterialQuery.collectMaterial = true
                  ∧ sampleLayer.m_ssApproachSurfaces > 1) then
            [10, 11].filter (fun a =>
              decide (some a ≠ sampleMaterialQuery.startSurface
                ∧ some a ≠ sampleMaterialQuery.endSurface
                ∧ (sampleMaterialQuery.collectPassive = true
                    ∨ sampleEnv.associatedMaterial a = true)))
          else []) = [10]
      ∧ ∃ c : Collector,
          sensitiveSection sampleEnv sampleLayer sampleMaterialQuery
              (ceiling sampleEnv sampleMaterialQuery) ⟨[], []⟩ = some c
            ∧ (Run.mk (some ⟨30, ⟨0, 0, 0⟩, ⟨0, 0, 1⟩, true, ⟨false, 0⟩⟩)
                  [probeCall sampleMaterialQuery 10, probeCall sampleMaterialQuery 20]
                  [sampleHit 10 5, sampleHit 20 25]).probes
                = (if sampleMaterialQuery.collectPassive = true
                      ∨ (sampleMaterialQuery.collectMaterial = true
                          ∧ sampleLayer.m_ssApproachSurfaces > 1) then
                    [10, 11].filter (fun a =>
                      decide (some a ≠ sampleMaterialQuery.startSurface
                        ∧ some a ≠ sampleMaterialQuery.endSurface
                        ∧ (sampleMaterialQuery.collectPassive = true
                            ∨ sampleEnv.associatedMaterial a = true)))
                  else []).map (probeCall sampleMaterialQuery)
                  ++ (representingSection sampleEnv sampleLayer sampleMaterialQuery
                        (ceiling sampleEnv sampleMaterialQuery) c).probes :=
  ⟨by decide, rfl, by decide, by decide,
   approachPass_probes sampleEnv sampleLayer sampleMaterialQuery _ ⟨[10, 11]⟩ (by decide) rfl
     (by decide)⟩
/-- C14: with both cached counts at most one and only `collectMaterial` set, sections (A)
and (B) make no call whatever the material markers; the run returns, probes at
most the representing surface, returns nothing when that surface carries no
material, and otherwise returns at most one element, which references the
representing surface. -/
theorem materialOnly_smallCounts (env : Env) (layer : Layer) (q : Query)
    (hA : layer.m_ssApproachSurfaces ≤ 1) (hS : layer.m_ssSensitiveSurfaces ≤ 1)
    (_hm : q.collectMaterial = true) (hs : q.collectSensitive = false)
    (hp : q.collectPassive = false) :
    (∀ (m : Option Int) (c : Collector), approachSection env layer q m c = c)
      ∧ (∀ (m : Option Int) (c : Collector), sensitiveSection env layer q m c = some c)
      ∧ ∃ r : Run, getCompatibleSurfacesRun env layer q = some r
          ∧ (∀ c ∈ r.probes, c = probeCall q layer.surfaceRepresentation)
          ∧ r.probes.length ≤ 1
          ∧ (env.associatedMaterial layer.surfaceRepresentation = false →
              r.probes = [] ∧ r.result = [])
          ∧ r.result.length ≤ 1
          ∧ ∀ x ∈ r.result, x.object = layer.surfaceRepresentation := by
  have hnoA : ¬ (q.collectPassive = true
      ∨ (q.collectMaterial = true ∧ layer.m_ssApproachSurfaces > 1)) := by
    rintro (h | ⟨_, h⟩)
    · rw [hp] at h; exact absurd h (by simp)
    · omega
  have hnoS : ¬ ((q.collectPassive || q.collectSensitive) = true
      ∨ (q.collectMaterial = true ∧ layer.m_ssSensitiveSurfaces > 1)) := by
    rintro (h | ⟨_, h⟩)
    · rw [hp, hs] at h; exact absurd h (by simp)
    · omega
  have happ : approachCandidates env layer q = [] := by
    unfold approachCandidates
    cases layer.m_approachDescriptor with
    | none => rfl
    | some ad => simp only [if_neg hnoA]
  have hsens : sensitiveTestSurfaces env layer q = some [] := by
    unfold sensitiveTestSurfaces
    cases layer.m_surfaceArray with
    | none => rfl
    | some sa => simp only [if_neg hnoS]
  have hmat : env.associatedMaterial layer.surfaceRepresentation = false →
      ¬ representingTested env layer q := by
    intro hno ht
    rcases ht.2.2.2 with h | ⟨_, h⟩
    · rw [hp] at h; exact absurd h (by simp)
    · rw [hno] at h; exact absurd h (by simp)
  refine ⟨?_, ?_, ?_⟩
  · intro m c
    rw [approachSection_eq, happ, probeAll_nil]
  · intro m c
    rw [sensitiveSection_eq, hsens]
    rfl
  · by_cases hreach : reachesSections env layer q
    · refine ⟨_, (run_eq_some_iff env layer q _ hreach).mpr ⟨[], hsens, rfl⟩, ?_⟩
      rw [happ, representingCandidates_eq]
      by_cases ht : representingTested env layer q
      · simp only [if_pos ht, List.nil_append, List.map_cons, List.map_nil,
          List.mem_singleton, List.length_singleton, le_refl, List.length_insertionSort,
          List.mem_insertionSort, List.mem_filterMap, true_and]
        refine ⟨fun c hc => hc, fun hno => absurd ht (hmat hno), ?_, ?_⟩
        · exact (List.length_filterMap_le _ _).trans (by simp)
        · rintro x ⟨s, hs1, hacc⟩
          rw [hs1] at hacc
          exact (accept_eq_some env q _ _ x hacc).1
      · simp [if_neg ht]
    · obtain ⟨ep, hrun⟩ := run_of_not_reaches env layer q hreach
      exact ⟨_, hrun, by simp⟩

/-- Witness of C14: on the small sample layer the material-only query probes the
representing surface 20 alone, although approach surface 10 carries material. -/
theorem materialOnly_smallCounts_witness :
    sampleLayerSmall.m_ssApproachSurfaces ≤ 1 ∧ sampleLayerSmall.m_ssSensitiveSurfaces ≤ 1
      ∧ sampleMaterialQuery.collectMaterial = true ∧ sampleMaterialQuery.collectSensitive = false
      ∧ sampleMaterialQuery.collectPassive = false
      ∧ sampleEnv.associatedMaterial 10 = true
      ∧ getCompatibleSurfacesRun sampleEnv sampleLayerSmall sampleMaterialQuery
          = some ⟨some ⟨30, ⟨0, 0, 0⟩, ⟨0, 0, 1⟩, true, ⟨false, 0⟩⟩,
              [probeCall sampleMaterialQuery 20], [sampleHit 20 25]⟩
      ∧ ∀ (m : Option Int) (c : Collector),
          approachSection sampleEnv sampleLayerSmall sampleMaterialQuery m c = c :=
  ⟨by decide, by decide, rfl, rfl, rfl, rfl, by decide,
   (materialOnly_smallCounts sampleEnv sampleLayerSmall sampleMaterialQuery (by decide)
      (by decide) rfl rfl rfl).1⟩

/-- C15: in local mode, when the index finds no surface at the position, section (B)
leaves the collection as it is and the run returns: the result is the sorted
collection that sections (A) and (C) build on their own, and is empty when the
run does not reach the sections. -/
theorem local_null_lookup (env : Env) (layer : Layer) (q : Query) (sa : SurfaceArray)
    (hmode : 0 < q.searchType) (hsa : layer.m_surfaceArray = some sa)
    (hnull : sa.object q.pars.position = none) :
    (∀ (m : Option Int) (c : Collector), sensitiveSection env layer q m c = some c)
      ∧ getCompatibleSurfaces env layer q
          = some (if reachesSections env layer q then
              (representingSection env layer q (ceiling env q)
                (approachSection env layer q (ceiling env q) ⟨[], []⟩)).cSurfaces.insertionSort
                SurfaceIntersection.le
            else []) := by
  have hsens : sensitiveTestSurfaces env layer q = some [] := by
    unfold sensitiveTestSurfaces
    rw [hsa]
    simp only
    split
    · unfold gatherTestSurfaces
      rw [if_neg (by omega), hnull]
      rfl
    · rfl
  refine ⟨?_, ?_⟩
  · intro m c
    rw [sensitiveSection_eq, hsens]
    rfl
  · unfold getCompatibleSurfaces
    by_cases hreach : reachesSections env layer q
    · rw [(run_eq_some_iff env layer q _ hreach).mpr ⟨[], hsens, rfl⟩, if_pos hreach,
        approachSection_eq, representingSection_eq]
      simp [probeAll]
    · obtain ⟨ep, hrun⟩ := run_of_not_reaches env layer q hreach
      rw [hrun, if_neg hreach]
      rfl

/-- Witness of C15: the local sample query on the layer whose lookup finds nothing
returns the hits of approach surface 10 and of representing surface 20. -/
theorem local_null_lookup_witness :
    0 < ({ sampleQuery with searchType := 1 } : Query).searchType
      ∧ sampleLayerNoHit.m_surfaceArray = some ⟨[some 1, some 2, some 3], fun _ => none⟩
      ∧ reachesSections sampleEnv sampleLayerNoHit { sampleQuery with searchType := 1 }
      ∧ (representingSection sampleEnv sampleLayerNoHit { sampleQuery with searchType := 1 }
            (ceiling sampleEnv { sampleQuery with searchType := 1 })
            (approachSection sampleEnv sampleLayerNoHit { sampleQuery with searchType := 1 }
              (ceiling sampleEnv { sampleQuery with searchType := 1 })
              ⟨[], []⟩)).cSurfaces.insertionSort SurfaceIntersection.le
          = [sampleHit 10 5, sampleHit 20 25]
      ∧ getCompatibleSurfaces sampleEnv sampleLayerNoHit { sampleQuery with searchType := 1 }
          = some (if reachesSections sampleEnv sampleLayerNoHit
                { sampleQuery with searchType := 1 } then
              (representingSection sampleEnv sampleLayerNoHit { sampleQuery with searchType := 1 }
                (ceiling sampleEnv { sampleQuery with searchType := 1 })
                (approachSection sampleEnv sampleLayerNoHit { sampleQuery with searchType := 1 }
                  (ceiling sampleEnv { sampleQuery with searchType := 1 })
                  ⟨[], []⟩)).cSurfaces.insertionSort SurfaceIntersection.le
            else []) :=
  ⟨by decide, rfl, by decide, by decide,
   (local_null_lookup sampleEnv sampleLayerNoHit { sampleQuery with searchType := 1 }
      ⟨[some 1, some 2, some 3], fun _ => none⟩ (by decide) rfl rfl).2⟩

/-- C16: with `collectPassive` set, replacing every material marker, both cached counts,
`collectSensitive` and `collectMaterial` by arbitrary values changes neither the
estimator calls made nor the vector returned, nor whether the run returns. -/
theorem getCompatibleSurfacesRun_passive_independent (env : Env) (layer : Layer) (q : Query)
    (material : Surface → Bool) (sensitive materialSwitch : Bool) (nSensitive nApproach : Int)
    (hp : q.collectPassive = true) :
    getCompatibleSurfacesRun { env with associatedMaterial := material }
        { layer with m_ssSensitiveSurfaces := nSensitive, m_ssApproachSurfaces := nApproach }
        { q with collectSensitive := sensitive, collectMaterial := materialSwitch }
      = getCompatibleSurfacesRun env layer q := by
  rw [run_passive { env with associatedMaterial := material }
      { layer with m_ssSensitiveSurfaces := nSensitive, m_ssApproachSurfaces := nApproach }
      { q with collectSensitive := sensitive, collectMaterial := materialSwitch } hp,
    run_passive env layer q hp]
  rfl

/-- Witness of C16: the sample run, against the run with material everywhere, both counts
zero and the two other switches cleared. -/
theorem getCompatibleSurfacesRun_passive_independent_witness :
    sampleQuery.collectPassive = true
      ∧ getCompatibleSurfacesRun sampleEnv sampleLayer sampleQuery = some sampleRun
      ∧ getCompatibleSurfacesRun { sampleEnv with associatedMaterial := fun _ => true }
          { sampleLayer with m_ssSensitiveSurfaces := 0, m_ssApproachSurfaces := 0 }
          { sampleQuery with collectSensitive := false, collectMaterial := false }
        = getCompatibleSurfacesRun sampleEnv sampleLayer sampleQuery :=
  ⟨rfl, by decide,
   getCompatibleSurfacesRun_passive_independent sampleEnv sampleLayer sampleQuery
     (fun _ => true) false false 0 0 rfl⟩

end Acts
